import Mathlib

/-!
Verification of the FleetFS replication and request-routing core against its
natural-language specification.  The Rust sources are shallowly embedded:
pure functions become Lean functions, stateful code becomes explicit state
passing, and the external libraries (raft-rs, flatbuffers, the storage
backends, the transaction coordinator) are modelled as abstract oracles
supplied through environment records.  Machine integers carry no arithmetic
in the embedded fragments, so they are modelled as `Nat`.
-/

set_option autoImplicit false

namespace Fleetfs

/-- Error-code enum of the wire protocol (`crate::generated::ErrorCode`),
restricted to the values the embedded code can produce or propagate. -/
inductive ErrorCode where
  | BadRequest
  | DoesNotExist
  | InternalError
  | Timeout
  | RaftFailed
  deriving DecidableEq, Repr

namespace Meta

/-- State of `MetadataStorage` (src/metadata_storage.rs): three hash maps,
modelled as functions from path to optional value.  The `Mutex` wrappers
only serialize access and are dropped in the sequential embedding. -/
structure MetadataStorage where
  file_lengths : String → Option Nat
  uids : String → Option Nat
  gids : String → Option Nat

/-- `HashMap::insert` on the function model of a map. -/
def mapInsert (m : String → Option Nat) (k : String) (v : Nat) : String → Option Nat :=
  fun k2 => if k2 = k then some v else m k2

/-- `MetadataStorage::get_length` (src/metadata_storage.rs:25). -/
def get_length (st : MetadataStorage) (path : String) : Option Nat :=
  st.file_lengths path

/-- `MetadataStorage::get_uid` (src/metadata_storage.rs:31). -/
def get_uid (st : MetadataStorage) (path : String) : Option Nat :=
  st.uids path

/-- `MetadataStorage::get_gid` (src/metadata_storage.rs:37). -/
def get_gid (st : MetadataStorage) (path : String) : Option Nat :=
  st.gids path

/-- `MetadataStorage::chown` (src/metadata_storage.rs:44): insert the uid if
present, insert the gid if present, and return `Ok(())`. -/
def chown (st : MetadataStorage) (path : String) (uid gid : Option Nat) :
    MetadataStorage × Except ErrorCode Unit :=
  let st1 := match uid with
    | some u => { st with uids := mapInsert st.uids path u }
    | none => st
  let st2 := match gid with
    | some g => { st1 with gids := mapInsert st1.gids path g }
    | none => st1
  (st2, Except.ok ())

/-- `MetadataStorage::truncate` (src/metadata_storage.rs:81): overwrite the
stored length of `path` with `new_length`. -/
def truncate (st : MetadataStorage) (path : String) (new_length : Nat) : MetadataStorage :=
  { st with file_lengths := mapInsert st.file_lengths path new_length }

/-- `MetadataStorage::unlink` (src/metadata_storage.rs:87): remove the length
entry of `path`. -/
def unlink (st : MetadataStorage) (path : String) : MetadataStorage :=
  { st with file_lengths := fun k2 => if k2 = path then none else st.file_lengths k2 }

/-- `MetadataStorage::write` (src/metadata_storage.rs:101): grow the stored
length of `path` to at least `offset + length`. -/
def write (st : MetadataStorage) (path : String) (offset : Nat) (length : Nat) :
    MetadataStorage :=
  let current_length := (st.file_lengths path).getD 0
  { st with file_lengths := mapInsert st.file_lengths path (max current_length (length + offset)) }

/-- An empty metadata store, used to instantiate universally quantified
theorems at concrete inputs. -/
def emptyStore : MetadataStorage :=
  { file_lengths := fun _ => none, uids := fun _ => none, gids := fun _ => none }

end Meta

namespace RaftMgr

/-- Errors of the external raft library (`raft::Error`), modelled as an
abstract enumeration of the failure cases relevant here. -/
inductive RaftError where
  | proposalDropped
  | stepPeerNotFound
  | snapshotOutOfDate
  deriving DecidableEq, Repr

/-- `raft::eraftpb::EntryType`. -/
inductive EntryType where
  | EntryNormal
  | EntryConfChange
  deriving DecidableEq, Repr

/-- A raft log entry (`raft::eraftpb::Entry`), with its index, opaque data
bytes, and entry type. -/
structure Entry where
  index : Nat
  data : List Nat
  entry_type : EntryType
  deriving DecidableEq, Repr

/-- A raft snapshot, identified abstractly by its index. -/
structure Snapshot where
  index : Nat
  deriving DecidableEq, Repr

/-- `raft::eraftpb::HardState`. -/
structure HardState where
  term : Nat
  vote : Nat
  commit : Nat
  deriving DecidableEq, Repr

/-- A consensus message (`raft::eraftpb::Message`): only the destination is
inspected by the embedded code; the rest is opaque. -/
structure Message where
  msg_to : Nat
  body : Nat
  deriving DecidableEq, Repr

/-- The `Ready` structure drained by the ready-loop: pending snapshot, new
entries to persist, changed hard state, newly committed entries, and
outgoing messages. -/
structure Ready where
  snapshot : Option Snapshot
  entries : List Entry
  hs : Option HardState
  committed_entries : Option (List Entry)
  messages : List Message
  deriving DecidableEq, Repr

/-- The raft `MemStorage` log store, modelled abstractly: the applied
snapshot, the appended entries, and the saved hard state. -/
structure MemStorage where
  snapshot : Option Snapshot
  entries : List Entry
  hard_state : Option HardState
  deriving DecidableEq, Repr

/-- `MemStorage::apply_snapshot` (successful case). -/
def MemStorage.apply_snapshot (s : MemStorage) (snap : Snapshot) : MemStorage :=
  { s with snapshot := some snap }

/-- `MemStorage::append` (successful case), modelled as concatenation. -/
def MemStorage.append (s : MemStorage) (es : List Entry) : MemStorage :=
  { s with entries := s.entries ++ es }

/-- `MemStorage::set_hardstate`. -/
def MemStorage.set_hardstate (s : MemStorage) (h : HardState) : MemStorage :=
  { s with hard_state := some h }

/-- Abstract state of the external `RawNode<MemStorage>`: its store, whether
`has_ready()` holds, the `Ready` it would yield, the outcome the library
would give to `propose`, the resulting `raft_log.last_index()`, and the
current `leader_id`. -/
structure RawNode where
  store : MemStorage
  has_ready : Bool
  ready : Ready
  propose_result : Except RaftError Unit
  last_index : Nat
  leader_id : Nat

/-- One entry of the pending-response table: the response builder registered
by the proposer and whether the proposer's one-shot receiver still exists
(`Sender::send` fails exactly when the receiver was dropped). -/
structure PendingResponse where
  builder : Nat
  receiver_alive : Bool
  deriving DecidableEq, Repr

/-- Environment of oracles for the collaborators of `RaftManager` that are
outside src/: the storage-facade `handler` (fills a builder from request
bytes), the fallible log-store operations, the per-message `step` outcome of
the raft library, and `is_write_request` from utils. -/
structure RaftEnv where
  handler : List Nat → Nat → Nat
  apply_snapshot_result : Except RaftError Unit
  append_result : Except RaftError Unit
  step_result : Message → Except RaftError Unit
  is_write_request : List Nat → Bool

/-- The builder allocated by `FlatBufferBuilder::new()` on the applier's
discard path, as an abstract token. -/
def builderNew : Nat := 0

/-- Steps taken by the applier during one ready-loop pass
(`_process_raft_queue`, src/raft_manager.rs:107). -/
inductive ApplierStep where
  | applySnapshot
  | appendEntries
  | setHardState
  | skipEmptyEntry (index : Nat)
  | executeEntry (index : Nat) (reusedBuilder : Bool)
  | sendResponse (index : Nat)
  deriving DecidableEq, Repr

/-- Outcome of one ready-loop pass: the drained outgoing messages, a raft
error propagated by `?`, or a panic. -/
inductive QueueOutcome where
  | ok (messages : List Message)
  | raftError (e : RaftError)
  | panicked
  deriving DecidableEq, Repr

/-- `HashMap::remove` on the association-list model: the removed value and
the remaining map, or `none` when the key is absent. -/
def lookupRemove (m : List (Nat × PendingResponse)) (k : Nat) :
    Option (PendingResponse × List (Nat × PendingResponse)) :=
  match m with
  | [] => none
  | (k2, v) :: rest =>
    if k2 = k then some (v, rest)
    else
      match lookupRemove rest k with
      | some (v2, rest2) => some (v2, (k2, v) :: rest2)
      | none => none

/-- Result of the committed-entries loop: the applier steps taken, the
pending-response table afterwards, the responses delivered over one-shot
channels as (index, filled builder) pairs, and whether the loop panicked. -/
structure ApplyLoopResult where
  trace : List ApplierStep
  pending : List (Nat × PendingResponse)
  delivered : List (Nat × Nat)
  panicked : Bool
  deriving DecidableEq, Repr

/-- The committed-entries loop of `_process_raft_queue`
(src/raft_manager.rs:132-158): skip empty entries; assert the entry is
normal; decode the data and run the storage `handler`, reusing (and
removing) the pending builder for that index when present and delivering
the filled builder (`sender.send(builder).ok().unwrap()` panics when the
receiver is gone), else running the handler on a fresh discarded builder. -/
def applyCommittedEntries (env : RaftEnv) :
    List Entry → List (Nat × PendingResponse) → ApplyLoopResult
  | [], pending => ⟨[], pending, [], false⟩
  | e :: rest, pending =>
    if e.data = [] then
      let r := applyCommittedEntries env rest pending
      ⟨ApplierStep.skipEmptyEntry e.index :: r.trace, r.pending, r.delivered, r.panicked⟩
    else if e.entry_type ≠ EntryType.EntryNormal then
      ⟨[], pending, [], true⟩
    else
      match lookupRemove pending e.index with
      | some (pr, pending2) =>
        let filled := env.handler e.data pr.builder
        if pr.receiver_alive then
          let r := applyCommittedEntries env rest pending2
          ⟨ApplierStep.executeEntry e.index true :: ApplierStep.sendResponse e.index :: r.trace,
           r.pending, (e.index, filled) :: r.delivered, r.panicked⟩
        else
          ⟨[ApplierStep.executeEntry e.index true], pending2, [], true⟩
      | none =>
        let _filled := env.handler e.data builderNew
        let r := applyCommittedEntries env rest pending
        ⟨ApplierStep.executeEntry e.index false :: r.trace, r.pending, r.delivered, r.panicked⟩

/-- Result of one full ready-loop pass. -/
structure QueueResult where
  trace : List ApplierStep
  store : MemStorage
  pending : List (Nat × PendingResponse)
  delivered : List (Nat × Nat)
  outcome : QueueOutcome

/-- Stages 3-4 of `_process_raft_queue`: save the hard state if changed,
then run the committed-entries loop, then drain the outgoing messages. -/
def applyStage (env : RaftEnv) (ready : Ready) (trace0 : List ApplierStep)
    (store : MemStorage) (pending : List (Nat × PendingResponse)) : QueueResult :=
  let (hsTrace, store3) :=
    match ready.hs with
    | some h => ([ApplierStep.setHardState], store.set_hardstate h)
    | none => ([], store)
  let r :=
    match ready.committed_entries with
    | some es => applyCommittedEntries env es pending
    | none => ⟨[], pending, [], false⟩
  if r.panicked then
    ⟨trace0 ++ hsTrace ++ r.trace, store3, r.pending, r.delivered, QueueOutcome.panicked⟩
  else
    ⟨trace0 ++ hsTrace ++ r.trace, store3, r.pending, r.delivered, QueueOutcome.ok ready.messages⟩

/-- Stage 2 of `_process_raft_queue`: persist the new entries via the log
store when there are any, propagating a store failure. -/
def appendStage (env : RaftEnv) (ready : Ready) (trace0 : List ApplierStep)
    (store : MemStorage) (pending : List (Nat × PendingResponse)) : QueueResult :=
  if ready.entries.isEmpty then
    applyStage env ready trace0 store pending
  else
    match env.append_result with
    | Except.error e =>
      ⟨trace0 ++ [ApplierStep.appendEntries], store, pending, [], QueueOutcome.raftError e⟩
    | Except.ok _ =>
      applyStage env ready (trace0 ++ [ApplierStep.appendEntries])
        (store.append ready.entries) pending

/-- `RaftManager::_process_raft_queue` (src/raft_manager.rs:107): if nothing
is ready do nothing; otherwise install a pending snapshot, persist new
entries, save a changed hard state, apply the newly committed entries, and
drain the outgoing messages. -/
def _process_raft_queue (env : RaftEnv) (node : RawNode)
    (pending : List (Nat × PendingResponse)) : QueueResult :=
  if node.has_ready = false then
    ⟨[], node.store, pending, [], QueueOutcome.ok []⟩
  else
    let ready := node.ready
    match ready.snapshot with
    | some snap =>
      match env.apply_snapshot_result with
      | Except.error e =>
        ⟨[ApplierStep.applySnapshot], node.store, pending, [], QueueOutcome.raftError e⟩
      | Except.ok _ =>
        appendStage env ready [ApplierStep.applySnapshot]
          (node.store.apply_snapshot snap) pending
    | none => appendStage env ready [] node.store pending

/-- `RaftManager::_propose` (src/raft_manager.rs:167): propose the data to
the raft node and on success return `raft_log.last_index()`. -/
def _propose (node : RawNode) (_data : List Nat) : Except RaftError Nat :=
  match node.propose_result with
  | Except.error e => Except.error e
  | Except.ok _ => Except.ok node.last_index

/-- Outcome of the public `propose`: the claimed contract allows a log index
or a typed error; the embedding additionally has the panic outcome produced
by the `unwrap` calls in the source. -/
inductive ProposeOutcome where
  | ok (index : Nat)
  | err (e : RaftError)
  | panicked
  deriving DecidableEq, Repr

/-- `HashMap::insert` on the association-list model. -/
def insertPending (m : List (Nat × PendingResponse)) (k : Nat) (v : PendingResponse) :
    List (Nat × PendingResponse) :=
  match m with
  | [] => [(k, v)]
  | (k2, v2) :: rest =>
    if k2 = k then (k, v) :: rest else (k2, v2) :: insertPending rest k v

/-- `RaftManager::propose` (src/raft_manager.rs:190): assert the request is
a write, call `_propose(...).unwrap()` (panicking on any consensus error),
then register the pending response at the returned index with a live
one-shot channel. -/
def propose (env : RaftEnv) (node : RawNode) (pending : List (Nat × PendingResponse))
    (request : List Nat) (builder : Nat) :
    ProposeOutcome × List (Nat × PendingResponse) :=
  if env.is_write_request request = false then
    (ProposeOutcome.panicked, pending)
  else
    match _propose node request with
    | Except.error _ => (ProposeOutcome.panicked, pending)
    | Except.ok index =>
      (ProposeOutcome.ok index, insertPending pending index ⟨builder, true⟩)

/-- Externally visible effects of the `RaftManager` entry points, used to
state which paths drive the ready-loop and the peer transport. -/
inductive ManagerEffect where
  | stepMessage (dest : Nat)
  | tickClock
  | readyLoopRun
  | sendMessageTo (peer : Nat)
  deriving DecidableEq, Repr

/-- Outcome of `apply_messages`. -/
inductive ApplyMsgsOutcome where
  | ok
  | raftError (e : RaftError)
  | panicked
  deriving DecidableEq, Repr

/-- `RaftManager::apply_messages` (src/raft_manager.rs:69): assert each
message is addressed to this node and `step` it into the raft state
machine; nothing else (the comment in the source records that running the
queue here would deadlock). -/
def apply_messages (env : RaftEnv) (node_id : Nat) :
    List Message → List ManagerEffect × ApplyMsgsOutcome
  | [] => ([], ApplyMsgsOutcome.ok)
  | m :: rest =>
    if m.msg_to ≠ node_id then ([], ApplyMsgsOutcome.panicked)
    else
      match env.step_result m with
      | Except.error e => ([ManagerEffect.stepMessage m.msg_to], ApplyMsgsOutcome.raftError e)
      | Except.ok _ =>
        let (tr, out) := apply_messages env node_id rest
        (ManagerEffect.stepMessage m.msg_to :: tr, out)

/-- `RaftManager::process_raft_queue` (src/raft_manager.rs:101): run the
ready-loop and hand every drained message to the peer transport. -/
def process_raft_queue_effects (env : RaftEnv) (node : RawNode)
    (pending : List (Nat × PendingResponse)) : List ManagerEffect :=
  match (_process_raft_queue env node pending).outcome with
  | QueueOutcome.ok msgs =>
    ManagerEffect.readyLoopRun :: msgs.map (fun m => ManagerEffect.sendMessageTo m.msg_to)
  | _ => [ManagerEffect.readyLoopRun]

/-- `RaftManager::background_tick` (src/raft_manager.rs:92): tick the raft
node, then run the ready-loop. -/
def background_tick_effects (env : RaftEnv) (node : RawNode)
    (pending : List (Nat × PendingResponse)) : List ManagerEffect :=
  ManagerEffect.tickClock :: process_raft_queue_effects env node pending

/-- `RaftManager::initialize` (src/raft_manager.rs:173): tick up to 100
times until a leader is observed; it never runs the ready-loop. -/
def initializeLoopEffects (node : RawNode) : List ManagerEffect :=
  if node.leader_id > 0 then [ManagerEffect.tickClock]
  else List.replicate 100 ManagerEffect.tickClock

/-- The public entry points of `RaftManager`. -/
inductive ManagerOp where
  | opApplyMessages (msgs : List Message)
  | opBackgroundTick
  | opPropose (request : List Nat) (builder : Nat)
  | opInitLoop

/-- Effect trace of each public entry point.  `propose` only touches the
raft node and the pending-response table, producing none of these effects
(the source's call to `process_raft_queue` there is commented out). -/
def opEffects (env : RaftEnv) (node : RawNode) (pending : List (Nat × PendingResponse))
    (node_id : Nat) : ManagerOp → List ManagerEffect
  | ManagerOp.opApplyMessages msgs => (apply_messages env node_id msgs).1
  | ManagerOp.opBackgroundTick => background_tick_effects env node pending
  | ManagerOp.opPropose _ _ => []
  | ManagerOp.opInitLoop => initializeLoopEffects node

/-- Lookup in the association-list model of the pending-response table,
without removal. -/
def lookupPending (m : List (Nat × PendingResponse)) (k : Nat) : Option PendingResponse :=
  match m with
  | [] => none
  | (k2, v) :: rest => if k2 = k then some v else lookupPending rest k

/-- The keys of an association list are distinct (the `HashMap` invariant). -/
def keysNodup (m : List (Nat × PendingResponse)) : Prop :=
  (m.map Prod.fst).Nodup

/-- The (index, reused-builder) pairs of the handler executions recorded in
an applier trace. -/
def execSteps (tr : List ApplierStep) : List (Nat × Bool) :=
  tr.filterMap (fun s =>
    match s with
    | ApplierStep.executeEntry i b => some (i, b)
    | _ => none)

/-- Steps of the apply phase of the ready-loop (anything that is not one of
the three persistence steps). -/
def isApplyPhaseStep : ApplierStep → Bool
  | ApplierStep.applySnapshot => false
  | ApplierStep.appendEntries => false
  | ApplierStep.setHardState => false
  | _ => true

/-- The applier order asserted by the spec: new entries are persisted before
the hard state is saved, the hard state before any snapshot is installed,
and any snapshot before a committed entry is executed. -/
def specApplierOrder (tr : List ApplierStep) : Prop :=
  (∀ i j : Nat, tr[i]? = some ApplierStep.appendEntries →
      tr[j]? = some ApplierStep.setHardState → i < j) ∧
  (∀ i j : Nat, tr[i]? = some ApplierStep.setHardState →
      tr[j]? = some ApplierStep.applySnapshot → i < j) ∧
  (∀ (i j k : Nat) (b : Bool), tr[i]? = some ApplierStep.applySnapshot →
      tr[j]? = some (ApplierStep.executeEntry k b) → i < j)

/-- A concrete oracle environment in which every external call succeeds. -/
def envOk : RaftEnv :=
  { handler := fun data b => b + data.length
    apply_snapshot_result := Except.ok ()
    append_result := Except.ok ()
    step_result := fun _ => Except.ok ()
    is_write_request := fun _ => true }

/-- A concrete raft node whose consensus layer drops proposals. -/
def nodeNoLeader : RawNode :=
  { store := ⟨none, [], none⟩
    has_ready := false
    ready := ⟨none, [], none, none, []⟩
    propose_result := Except.error RaftError.proposalDropped
    last_index := 0
    leader_id := 0 }

/-- A concrete healthy raft node that accepts proposals at index 3. -/
def nodeAccepting : RawNode :=
  { store := ⟨none, [], none⟩
    has_ready := false
    ready := ⟨none, [], none, none, []⟩
    propose_result := Except.ok ()
    last_index := 3
    leader_id := 1 }

/-- A concrete normal log entry at index 2. -/
def entryAt2 : Entry := ⟨2, [9], EntryType.EntryNormal⟩

/-- A concrete raft node with a full `Ready`: a pending snapshot, one new
entry, a changed hard state, and one committed entry. -/
def nodeFullReady : RawNode :=
  { store := ⟨none, [], none⟩
    has_ready := true
    ready :=
      { snapshot := some ⟨1⟩
        entries := [entryAt2]
        hs := some ⟨1, 1, 2⟩
        committed_entries := some [entryAt2]
        messages := [] }
    propose_result := Except.ok ()
    last_index := 2
    leader_id := 1 }

/-- A concrete normal committed entry at index 1. -/
def entryAt1 : Entry := ⟨1, [42], EntryType.EntryNormal⟩

/-- A pending-response table whose entry for index 1 has a dropped one-shot
receiver (the proposer abandoned its await). -/
def pendingDropped : List (Nat × PendingResponse) := [(1, ⟨7, false⟩)]

end RaftMgr

namespace Router

/-- Tags of the request union (`RequestType` in the generated flatbuffers
code), including the protocol-violating `NONE` discriminant. -/
inductive RequestType where
  | FilesystemCheckRequest
  | FilesystemChecksumRequest
  | ReadRequest
  | ReadRawRequest
  | SetXattrRequest
  | RemoveXattrRequest
  | UnlinkRequest
  | RmdirRequest
  | WriteRequest
  | UtimensRequest
  | ChmodRequest
  | ChownRequest
  | TruncateRequest
  | FsyncRequest
  | MkdirRequest
  | CreateRequest
  | LockRequest
  | UnlockRequest
  | HardlinkIncrementRequest
  | HardlinkRollbackRequest
  | CreateInodeRequest
  | DecrementInodeRequest
  | RemoveLinkRequest
  | ReplaceLinkRequest
  | UpdateParentRequest
  | UpdateMetadataChangedTimeRequest
  | CreateLinkRequest
  | HardlinkRequest
  | RenameRequest
  | LookupRequest
  | GetXattrRequest
  | ListXattrsRequest
  | ReaddirRequest
  | GetattrRequest
  | RaftRequest
  | LatestCommitRequest
  | FilesystemReadyRequest
  | NONE
  deriving DecidableEq, Repr

/-- Decoded union payloads, carrying the fields the router actually reads
from each variant.  The `raft` payload records whether its serialized
consensus message parses (`merge_from_bytes` succeeds). -/
inductive RequestPayload where
  | filesystemCheck
  | filesystemChecksum
  | read (inode offset read_size : Nat)
  | readRaw (inode offset read_size : Nat)
  | setXattr (inode : Nat)
  | removeXattr (inode : Nat)
  | unlink (parent : Nat) (name : String)
  | rmdir (parent : Nat) (name : String)
  | write (inode : Nat)
  | utimens (inode : Nat)
  | chmod (inode : Nat)
  | chown (inode : Nat)
  | truncate (inode : Nat)
  | fsync (inode : Nat)
  | mkdir (parent : Nat) (name : String) (uid gid mode : Nat)
  | create (parent : Nat) (name : String) (uid gid mode kind : Nat)
  | lock (inode : Nat)
  | unlock (inode : Nat)
  | hardlinkIncrement (inode : Nat)
  | hardlinkRollback (inode : Nat)
  | createInode
  | decrementInode (inode : Nat)
  | removeLink (parent : Nat)
  | replaceLink (parent : Nat)
  | updateParent (inode : Nat)
  | updateMetadataChangedTime (inode : Nat)
  | createLink (parent : Nat)
  | hardlink (inode : Nat)
  | rename (parent : Nat) (name : String) (new_parent : Nat) (new_name : String)
  | lookup (parent : Nat) (name : String)
  | getXattr (inode : Nat) (key : String)
  | listXattrs (inode : Nat)
  | readdir (inode : Nat)
  | getattr (inode : Nat)
  | raft (raft_group : Nat) (message_decodes : Bool)
  | latestCommit (raft_group : Nat)
  | filesystemReady
  deriving DecidableEq, Repr

/-- The union variant a payload belongs to. -/
def payloadKind : RequestPayload → RequestType
  | RequestPayload.filesystemCheck => RequestType.FilesystemCheckRequest
  | RequestPayload.filesystemChecksum => RequestType.FilesystemChecksumRequest
  | RequestPayload.read .. => RequestType.ReadRequest
  | RequestPayload.readRaw .. => RequestType.ReadRawRequest
  | RequestPayload.setXattr .. => RequestType.SetXattrRequest
  | RequestPayload.removeXattr .. => RequestType.RemoveXattrRequest
  | RequestPayload.unlink .. => RequestType.UnlinkRequest
  | RequestPayload.rmdir .. => RequestType.RmdirRequest
  | RequestPayload.write .. => RequestType.WriteRequest
  | RequestPayload.utimens .. => RequestType.UtimensRequest
  | RequestPayload.chmod .. => RequestType.ChmodRequest
  | RequestPayload.chown .. => RequestType.ChownRequest
  | RequestPayload.truncate .. => RequestType.TruncateRequest
  | RequestPayload.fsync .. => RequestType.FsyncRequest
  | RequestPayload.mkdir .. => RequestType.MkdirRequest
  | RequestPayload.create .. => RequestType.CreateRequest
  | RequestPayload.lock .. => RequestType.LockRequest
  | RequestPayload.unlock .. => RequestType.UnlockRequest
  | RequestPayload.hardlinkIncrement .. => RequestType.HardlinkIncrementRequest
  | RequestPayload.hardlinkRollback .. => RequestType.HardlinkRollbackRequest
  | RequestPayload.createInode => RequestType.CreateInodeRequest
  | RequestPayload.decrementInode .. => RequestType.DecrementInodeRequest
  | RequestPayload.removeLink .. => RequestType.RemoveLinkRequest
  | RequestPayload.replaceLink .. => RequestType.ReplaceLinkRequest
  | RequestPayload.updateParent .. => RequestType.UpdateParentRequest
  | RequestPayload.updateMetadataChangedTime .. => RequestType.UpdateMetadataChangedTimeRequest
  | RequestPayload.createLink .. => RequestType.CreateLinkRequest
  | RequestPayload.hardlink .. => RequestType.HardlinkRequest
  | RequestPayload.rename .. => RequestType.RenameRequest
  | RequestPayload.lookup .. => RequestType.LookupRequest
  | RequestPayload.getXattr .. => RequestType.GetXattrRequest
  | RequestPayload.listXattrs .. => RequestType.ListXattrsRequest
  | RequestPayload.readdir .. => RequestType.ReaddirRequest
  | RequestPayload.getattr .. => RequestType.GetattrRequest
  | RequestPayload.raft .. => RequestType.RaftRequest
  | RequestPayload.latestCommit .. => RequestType.LatestCommitRequest
  | RequestPayload.filesystemReady => RequestType.FilesystemReadyRequest

/-- A wire request: the union discriminant and the union table, which may be
absent or of the wrong variant. -/
structure GenericRequest where
  request_type : RequestType
  payload : Option RequestPayload
  deriving DecidableEq, Repr

/-- The generated `request_as_<variant>` accessors, uniformly: the decoded
union payload when the union table is present and belongs to the set
discriminant, else `None` (the malformed case). -/
def decodePayload (r : GenericRequest) : Option RequestPayload :=
  match r.payload with
  | some p => if payloadKind p = r.request_type then some p else none
  | none => none

/-- `LocalRaftGroupManager`: inode-to-group routing, group-by-id lookup, the
least-loaded group, and the list of all local groups. -/
structure LocalRaftGroupManager where
  lookup_by_inode : Nat → Nat
  lookup_by_raft_group : Nat → Nat
  least_loaded_group : Nat
  all_groups : List Nat

/-- The storage-facade read operations invoked by the router. -/
inductive ReadKind where
  | readOp
  | readRawOp
  | lookupOp
  | getXattrOp
  | listXattrsOp
  | readdirOp
  | getattrOp
  deriving DecidableEq, Repr

/-- The transaction-coordinator entry points invoked by the router. -/
inductive TxKind where
  | createTx
  | unlinkTx
  | rmdirTx
  | renameTx
  | hardlinkTx
  deriving DecidableEq, Repr

/-- Calls the dispatcher makes on its collaborators, in order. -/
inductive RouterEffect where
  | getLatestCommitFromLeader (group : Nat)
  | syncTo (group : Nat) (index : Nat)
  | fsRead (op : ReadKind) (group : Nat)
  | proposeTo (group : Nat)
  | runTransaction (t : TxKind)
  | fsckRun
  | checksumRun
  | applyMessagesTo (group : Nat)
  | latestLocalCommitOf (group : Nat)
  | leaderQuery (group : Nat)
  deriving DecidableEq, Repr

/-- Which collaborator produced a successful response. -/
inductive RespSrc where
  | fromFsck
  | fromChecksum
  | fromRead
  | fromReadRaw
  | fromPropose (group : Nat)
  | fromTransaction (t : TxKind)
  | fromLookup
  | fromGetXattr
  | fromListXattrs
  | fromReaddir
  | fromGetattr
  | fromEmpty
  | fromLatestCommit (index : Nat)
  deriving DecidableEq, Repr

/-- `FullOrPartialResponse` (src/handlers/router.rs:23): a pre-finalized
buffer, or a builder-and-offset triple the caller finalizes. -/
inductive FullOrPartialResponse where
  | full (src : RespSrc)
  | partialResp (src : RespSrc)
  deriving DecidableEq, Repr

/-- The panic sites of the dispatcher: the `unreachable!` on `NONE`, the
`merge_from_bytes(...).unwrap()` on an unparsable consensus message, and the
`apply_messages(...).unwrap()` on a failing step. -/
inductive PanicKind where
  | unreachableNone
  | protobufDecode
  | applyMessagesFailed
  deriving DecidableEq, Repr

/-- Outcome of `request_router_inner`: `Ok`, a typed error, or a panic. -/
inductive RouterOutcome where
  | ok (resp : FullOrPartialResponse)
  | err (code : ErrorCode)
  | panicked (k : PanicKind)
  deriving DecidableEq, Repr

/-- Oracles for the collaborators of the router that live outside src/: the
raft node (leader queries, sync, propose, apply_messages, latest commit,
leader wait), the file-storage read path, the fsck and checksum utilities,
and the transaction coordinator. -/
structure RouterEnv where
  latest_commit_from_leader : Nat → Except ErrorCode Nat
  sync_result : Nat → Nat → Except ErrorCode Unit
  fsck_result : Except ErrorCode Unit
  checksum_result : Except ErrorCode Unit
  read_result : Except ErrorCode Unit
  propose_result : Nat → Except ErrorCode Unit
  transaction_result : TxKind → Except ErrorCode Unit
  lookup_result : Except ErrorCode Unit
  get_xattr_result : Except ErrorCode Unit
  list_xattrs_result : Except ErrorCode Unit
  readdir_result : Except ErrorCode Unit
  getattr_result : Except ErrorCode Unit
  apply_messages_ok : Bool
  latest_local_commit : Nat → Nat
  get_leader_result : Nat → Except ErrorCode Unit

/-- `sync_with_leader` (src/handlers/router.rs:18): query the group leader
for its latest commit, then sync the local node to that index, propagating
either failure. -/
def sync_with_leader (env : RouterEnv) (g : Nat) :
    List RouterEffect × Except ErrorCode Unit :=
  match env.latest_commit_from_leader g with
  | Except.error e => ([RouterEffect.getLatestCommitFromLeader g], Except.error e)
  | Except.ok latest_commit =>
    match env.sync_result g latest_commit with
    | Except.error e =>
      ([RouterEffect.getLatestCommitFromLeader g, RouterEffect.syncTo g latest_commit],
       Except.error e)
    | Except.ok _ =>
      ([RouterEffect.getLatestCommitFromLeader g, RouterEffect.syncTo g latest_commit],
       Except.ok ())

/-- The freshness-handshake-then-storage-read pattern shared by the local
read arms of the dispatcher (`sync_with_leader(...)?` followed by the
file-storage call). -/
def handleRead (env : RouterEnv) (g : Nat) (k : ReadKind)
    (res : Except ErrorCode Unit) (src : RespSrc) (isFull : Bool) :
    List RouterEffect × RouterOutcome :=
  match sync_with_leader env g with
  | (tr, Except.error e) => (tr, RouterOutcome.err e)
  | (tr, Except.ok _) =>
    match res with
    | Except.error e => (tr ++ [RouterEffect.fsRead k g], RouterOutcome.err e)
    | Except.ok _ =>
      (tr ++ [RouterEffect.fsRead k g],
       RouterOutcome.ok (if isFull then FullOrPartialResponse.full src
         else FullOrPartialResponse.partialResp src))

/-- The `raft.lookup(...).propose(request, builder).await.map(Partial)`
pattern shared by the single-group write arms. -/
def handlePropose (env : RouterEnv) (g : Nat) : List RouterEffect × RouterOutcome :=
  match env.propose_result g with
  | Except.error e => ([RouterEffect.proposeTo g], RouterOutcome.err e)
  | Except.ok _ =>
    ([RouterEffect.proposeTo g],
     RouterOutcome.ok (FullOrPartialResponse.partialResp (RespSrc.fromPropose g)))

/-- The hand-off to the transaction coordinator (`..._transaction(...)
.await.map(Full)`). -/
def handleTransaction (env : RouterEnv) (t : TxKind) : List RouterEffect × RouterOutcome :=
  match env.transaction_result t with
  | Except.error e => ([RouterEffect.runTransaction t], RouterOutcome.err e)
  | Except.ok _ =>
    ([RouterEffect.runTransaction t],
     RouterOutcome.ok (FullOrPartialResponse.full (RespSrc.fromTransaction t)))

/-- The `sync_with_leader` loop over all groups in the filesystem-check arm,
stopping at the first failure. -/
def syncAll (env : RouterEnv) : List Nat → List RouterEffect × Except ErrorCode Unit
  | [] => ([], Except.ok ())
  | g :: rest =>
    match sync_with_leader env g with
    | (tr, Except.error e) => (tr, Except.error e)
    | (tr, Except.ok _) =>
      let (tr2, res) := syncAll env rest
      (tr ++ tr2, res)

/-- The `get_leader` loop over all groups in the filesystem-ready arm. -/
def awaitLeaders (env : RouterEnv) : List Nat → List RouterEffect × Except ErrorCode Unit
  | [] => ([], Except.ok ())
  | g :: rest =>
    match env.get_leader_result g with
    | Except.error e => ([RouterEffect.leaderQuery g], Except.error e)
    | Except.ok _ =>
      let (tr2, res) := awaitLeaders env rest
      (RouterEffect.leaderQuery g :: tr2, res)

/-- `request_router_inner` (src/handlers/router.rs:28): the top-level
dispatcher.  Every arm that decodes its union payload returns `BadRequest`
when the accessor yields `None`; local reads run the freshness handshake
then the storage read; single-group writes propose to the owning group
(create-inode to the least-loaded group); multi-inode operations go to the
transaction coordinator; raft messages are stepped into the addressed group
(with `unwrap` panics on an unparsable message or a failing step); the
`NONE` discriminant hits `unreachable!`. -/
def request_router_inner (env : RouterEnv) (mgr : LocalRaftGroupManager)
    (r : GenericRequest) : List RouterEffect × RouterOutcome :=
  match r.request_type with
  | RequestType.FilesystemCheckRequest =>
    match syncAll env mgr.all_groups with
    | (tr, Except.error e) => (tr, RouterOutcome.err e)
    | (tr, Except.ok _) =>
      match env.fsck_result with
      | Except.error e => (tr ++ [RouterEffect.fsckRun], RouterOutcome.err e)
      | Except.ok _ =>
        (tr ++ [RouterEffect.fsckRun],
         RouterOutcome.ok (FullOrPartialResponse.partialResp RespSrc.fromFsck))
  | RequestType.FilesystemChecksumRequest =>
    match env.checksum_result with
    | Except.error e => ([RouterEffect.checksumRun], RouterOutcome.err e)
    | Except.ok _ =>
      ([RouterEffect.checksumRun],
       RouterOutcome.ok (FullOrPartialResponse.partialResp RespSrc.fromChecksum))
  | RequestType.ReadRequest =>
    match decodePayload r with
    | some (RequestPayload.read inode _offset _read_size) =>
      handleRead env (mgr.lookup_by_inode inode) ReadKind.readOp env.read_result
        RespSrc.fromRead true
    | _ => ([], RouterOutcome.err ErrorCode.BadRequest)
  | RequestType.ReadRawRequest =>
    match decodePayload r with
    | some (RequestPayload.readRaw inode _offset _read_size) =>
      ([RouterEffect.fsRead ReadKind.readRawOp (mgr.lookup_by_inode inode)],
       RouterOutcome.ok (FullOrPartialResponse.full RespSrc.fromReadRaw))
    | _ => ([], RouterOutcome.err ErrorCode.BadRequest)
  | RequestType.SetXattrRequest =>
    match decodePayload r with
    | some (RequestPayload.setXattr inode) => handlePropose env (mgr.lookup_by_inode inode)
    | _ => ([], RouterOutcome.err ErrorCode.BadRequest)
  | RequestType.RemoveXattrRequest =>
    match decodePayload r with
    | some (RequestPayload.removeXattr inode) => handlePropose env (mgr.lookup_by_inode inode)
    | _ => ([], RouterOutcome.err ErrorCode.BadRequest)
  | RequestType.UnlinkRequest =>
    match decodePayload r with
    | some (RequestPayload.unlink _parent _name) => handleTransaction env TxKind.unlinkTx
    | _ => ([], RouterOutcome.err ErrorCode.BadRequest)
  | RequestType.RmdirRequest =>
    match decodePayload r with
    | some (RequestPayload.rmdir _parent _name) => handleTransaction env TxKind.rmdirTx
    | _ => ([], RouterOutcome.err ErrorCode.BadRequest)
  | RequestType.WriteRequest =>
    match decodePayload r with
    | some (RequestPayload.write inode) => handlePropose env (mgr.lookup_by_inode inode)
    | _ => ([], RouterOutcome.err ErrorCode.BadRequest)
  | RequestType.UtimensRequest =>
    match decodePayload r with
    | some (RequestPayload.utimens inode) => handlePropose env (mgr.lookup_by_inode inode)
    | _ => ([], RouterOutcome.err ErrorCode.BadRequest)
  | RequestType.ChmodRequest =>
    match decodePayload r with
    | some (RequestPayload.chmod inode) => handlePropose env (mgr.lookup_by_inode inode)
    | _ => ([], RouterOutcome.err ErrorCode.BadRequest)
  | RequestType.ChownRequest =>
    match decodePayload r with
    | some (RequestPayload.chown inode) => handlePropose env (mgr.lookup_by_inode inode)
    | _ => ([], RouterOutcome.err ErrorCode.BadRequest)
  | RequestType.TruncateRequest =>
    match decodePayload r with
    | some (RequestPayload.truncate inode) => handlePropose env (mgr.lookup_by_inode inode)
    | _ => ([], RouterOutcome.err ErrorCode.BadRequest)
  | RequestType.FsyncRequest =>
    match decodePayload r with
    | some (RequestPayload.fsync inode) => handlePropose env (mgr.lookup_by_inode inode)
    | _ => ([], RouterOutcome.err ErrorCode.BadRequest)
  | RequestType.MkdirRequest =>
    match decodePayload r with
    | some (RequestPayload.mkdir _parent _name _uid _gid _mode) =>
      handleTransaction env TxKind.createTx
    | _ => ([], RouterOutcome.err ErrorCode.BadRequest)
  | RequestType.CreateRequest =>
    match decodePayload r with
    | some (RequestPayload.create _parent _name _uid _gid _mode _kind) =>
      handleTransaction env TxKind.createTx
    | _ => ([], RouterOutcome.err ErrorCode.BadRequest)
  | RequestType.LockRequest =>
    match decodePayload r with
    | some (RequestPayload.lock inode) => handlePropose env (mgr.lookup_by_inode inode)
    | _ => ([], RouterOutcome.err ErrorCode.BadRequest)
  | RequestType.UnlockRequest =>
    match decodePayload r with
    | some (RequestPayload.unlock inode) => handlePropose env (mgr.lookup_by_inode inode)
    | _ => ([], RouterOutcome.err ErrorCode.BadRequest)
  | RequestType.HardlinkIncrementRequest =>
    match decodePayload r with
    | some (RequestPayload.hardlinkIncrement inode) =>
      handlePropose env (mgr.lookup_by_inode inode)
    | _ => ([], RouterOutcome.err ErrorCode.BadRequest)
  | RequestType.HardlinkRollbackRequest =>
    match decodePayload r with
    | some (RequestPayload.hardlinkRollback inode) =>
      handlePropose env (mgr.lookup_by_inode inode)
    | _ => ([], RouterOutcome.err ErrorCode.BadRequest)
  | RequestType.CreateInodeRequest =>
    match decodePayload r with
    | some RequestPayload.createInode => handlePropose env mgr.least_loaded_group
    | _ => ([], RouterOutcome.err ErrorCode.BadRequest)
  | RequestType.DecrementInodeRequest =>
    match decodePayload r with
    | some (RequestPayload.decrementInode inode) =>
      handlePropose env (mgr.lookup_by_inode inode)
    | _ => ([], RouterOutcome.err ErrorCode.BadRequest)
  | RequestType.RemoveLinkRequest =>
    match decodePayload r with
    | some (RequestPayload.removeLink parent) => handlePropose env (mgr.lookup_by_inode parent)
    | _ => ([], RouterOutcome.err ErrorCode.BadRequest)
  | RequestType.ReplaceLinkRequest =>
    match decodePayload r with
    | some (RequestPayload.replaceLink parent) =>
      handlePropose env (mgr.lookup_by_inode parent)
    | _ => ([], RouterOutcome.err ErrorCode.BadRequest)
  | RequestType.UpdateParentRequest =>
    match decodePayload r with
    | some (RequestPayload.updateParent inode) => handlePropose env (mgr.lookup_by_inode inode)
    | _ => ([], RouterOutcome.err ErrorCode.BadRequest)
  | RequestType.UpdateMetadataChangedTimeRequest =>
    match decodePayload r with
    | some (RequestPayload.updateMetadataChangedTime inode) =>
      handlePropose env (mgr.lookup_by_inode inode)
    | _ => ([], RouterOutcome.err ErrorCode.BadRequest)
  | RequestType.CreateLinkRequest =>
    match decodePayload r with
    | some (RequestPayload.createLink parent) => handlePropose env (mgr.lookup_by_inode parent)
    | _ => ([], RouterOutcome.err ErrorCode.BadRequest)
  | RequestType.HardlinkRequest =>
    match decodePayload r with
    | some (RequestPayload.hardlink _inode) => handleTransaction env TxKind.hardlinkTx
    | _ => ([], RouterOutcome.err ErrorCode.BadRequest)
  | RequestType.RenameRequest =>
    match decodePayload r with
    | some (RequestPayload.rename _parent _name _new_parent _new_name) =>
      handleTransaction env TxKind.renameTx
    | _ => ([], RouterOutcome.err ErrorCode.BadRequest)
  | RequestType.LookupRequest =>
    match decodePayload r with
    | some (RequestPayload.lookup parent _name) =>
      handleRead env (mgr.lookup_by_inode parent) ReadKind.lookupOp env.lookup_result
        RespSrc.fromLookup false
    | _ => ([], RouterOutcome.err ErrorCode.BadRequest)
  | RequestType.GetXattrRequest =>
    match decodePayload r with
    | some (RequestPayload.getXattr inode _key) =>
      handleRead env (mgr.lookup_by_inode inode) ReadKind.getXattrOp env.get_xattr_result
        RespSrc.fromGetXattr false
    | _ => ([], RouterOutcome.err ErrorCode.BadRequest)
  | RequestType.ListXattrsRequest =>
    match decodePayload r with
    | some (RequestPayload.listXattrs inode) =>
      handleRead env (mgr.lookup_by_inode inode) ReadKind.listXattrsOp env.list_xattrs_result
        RespSrc.fromListXattrs false
    | _ => ([], RouterOutcome.err ErrorCode.BadRequest)
  | RequestType.ReaddirRequest =>
    match decodePayload r with
    | some (RequestPayload.readdir inode) =>
      handleRead env (mgr.lookup_by_inode inode) ReadKind.readdirOp env.readdir_result
        RespSrc.fromReaddir false
    | _ => ([], RouterOutcome.err ErrorCode.BadRequest)
  | RequestType.GetattrRequest =>
    match decodePayload r with
    | some (RequestPayload.getattr inode) =>
      handleRead env (mgr.lookup_by_inode inode) ReadKind.getattrOp env.getattr_result
        RespSrc.fromGetattr false
    | _ => ([], RouterOutcome.err ErrorCode.BadRequest)
  | RequestType.RaftRequest =>
    match decodePayload r with
    | some (RequestPayload.raft raft_group message_decodes) =>
      if message_decodes then
        if env.apply_messages_ok then
          ([RouterEffect.applyMessagesTo (mgr.lookup_by_raft_group raft_group)],
           RouterOutcome.ok (FullOrPartialResponse.partialResp RespSrc.fromEmpty))
        else
          ([RouterEffect.applyMessagesTo (mgr.lookup_by_raft_group raft_group)],
           RouterOutcome.panicked PanicKind.applyMessagesFailed)
      else ([], RouterOutcome.panicked PanicKind.protobufDecode)
    | _ => ([], RouterOutcome.err ErrorCode.BadRequest)
  | RequestType.LatestCommitRequest =>
    match decodePayload r with
    | some (RequestPayload.latestCommit raft_group) =>
      ([RouterEffect.latestLocalCommitOf (mgr.lookup_by_raft_group raft_group)],
       RouterOutcome.ok (FullOrPartialResponse.partialResp
         (RespSrc.fromLatestCommit
           (env.latest_local_commit (mgr.lookup_by_raft_group raft_group)))))
    | _ => ([], RouterOutcome.err ErrorCode.BadRequest)
  | RequestType.FilesystemReadyRequest =>
    match awaitLeaders env mgr.all_groups with
    | (tr, Except.error e) => (tr, RouterOutcome.err e)
    | (tr, Except.ok _) =>
      (tr, RouterOutcome.ok (FullOrPartialResponse.partialResp RespSrc.fromEmpty))
  | RequestType.NONE => ([], RouterOutcome.panicked PanicKind.unreachableNone)

/-- The finalized wire response of `request_router`: a passed-through full
buffer, a partial response finalized in the caller's builder, or — on any
error — an `ErrorResponse` envelope carrying the error code, built in a
fresh `FlatBufferBuilder` and finalized. -/
inductive FinalResponse where
  | fullOut (src : RespSrc)
  | finalized (src : RespSrc)
  | errorEnvelope (code : ErrorCode)
  | panicOut (k : PanicKind)
  deriving DecidableEq, Repr

/-- `request_router` (src/handlers/router.rs:502). -/
def request_router (env : RouterEnv) (mgr : LocalRaftGroupManager)
    (r : GenericRequest) : FinalResponse :=
  match (request_router_inner env mgr r).2 with
  | RouterOutcome.ok (FullOrPartialResponse.full s) => FinalResponse.fullOut s
  | RouterOutcome.ok (FullOrPartialResponse.partialResp s) => FinalResponse.finalized s
  | RouterOutcome.err e => FinalResponse.errorEnvelope e
  | RouterOutcome.panicked k => FinalResponse.panicOut k

/-- No proposal effect occurs in a trace. -/
def noProposeIn (tr : List RouterEffect) : Prop :=
  ∀ g, RouterEffect.proposeTo g ∉ tr

/-- Every storage read in the trace is preceded by a completed freshness
handshake on the same group: first a leader latest-commit query, then a
sync to the returned index. -/
def readPreceded (tr : List RouterEffect) : Prop :=
  ∀ (n : Nat) (k : ReadKind) (g : Nat), tr[n]? = some (RouterEffect.fsRead k g) →
    ∃ m l : Nat, m < n ∧ tr[m]? = some (RouterEffect.syncTo g l) ∧
      ∃ m2 : Nat, m2 < m ∧ tr[m2]? = some (RouterEffect.getLatestCommitFromLeader g)

/-- The request kinds the spec lists as local reads. -/
def isLocalRead : RequestType → Bool
  | RequestType.ReadRequest => true
  | RequestType.ReadRawRequest => true
  | RequestType.LookupRequest => true
  | RequestType.ReaddirRequest => true
  | RequestType.GetattrRequest => true
  | RequestType.GetXattrRequest => true
  | RequestType.ListXattrsRequest => true
  | _ => false

/-- A concrete router environment in which every collaborator succeeds. -/
def renvOk : RouterEnv :=
  { latest_commit_from_leader := fun _ => Except.ok 0
    sync_result := fun _ _ => Except.ok ()
    fsck_result := Except.ok ()
    checksum_result := Except.ok ()
    read_result := Except.ok ()
    propose_result := fun _ => Except.ok ()
    transaction_result := fun _ => Except.ok ()
    lookup_result := Except.ok ()
    get_xattr_result := Except.ok ()
    list_xattrs_result := Except.ok ()
    readdir_result := Except.ok ()
    getattr_result := Except.ok ()
    apply_messages_ok := true
    latest_local_commit := fun _ => 0
    get_leader_result := fun _ => Except.ok () }

/-- A concrete single-group manager mapping every inode to group 0. -/
def mgr0 : LocalRaftGroupManager :=
  { lookup_by_inode := fun _ => 0
    lookup_by_raft_group := fun g => g
    least_loaded_group := 0
    all_groups := [0] }

/-- A concrete router environment whose group leaders are unreachable: the
leader latest-commit query times out, everything else succeeds. -/
def renvLeaderDown : RouterEnv :=
  { renvOk with latest_commit_from_leader := fun _ => Except.error ErrorCode.Timeout }

/-- A well-formed read-raw request for inode 1. -/
def readRawReq : GenericRequest :=
  ⟨RequestType.ReadRawRequest, some (RequestPayload.readRaw 1 0 4)⟩

/-- A well-formed getattr request for inode 1. -/
def getattrReq : GenericRequest :=
  ⟨RequestType.GetattrRequest, some (RequestPayload.getattr 1)⟩

/-- A raft request whose discriminant and union payload decode, but whose
serialized consensus message is not a parsable protobuf. -/
def raftGarbageReq : GenericRequest :=
  ⟨RequestType.RaftRequest, some (RequestPayload.raft 0 false)⟩

/-- A filesystem-check request whose union payload is absent. -/
def checkNoPayloadReq : GenericRequest :=
  ⟨RequestType.FilesystemCheckRequest, none⟩

end Router

end Fleetfs

namespace Fleetfs.Meta

/-- C9: after `truncate(p, n)` the stored length of `p` is exactly `n`:
`get_length p` returns `some n`. -/
theorem truncate_then_get_length (st : MetadataStorage) (p : String) (n : Nat) :
    get_length (truncate st p n) p = some n := by
  simp [get_length, truncate, mapInsert]

/-- C10: `chown` always returns `Ok`; it touches at most the uid entry of
`path` (when a uid is supplied) and the gid entry of `path` (when a gid is
supplied); the length map and all other paths are untouched; with neither a
uid nor a gid the state is unchanged. -/
theorem chown_frame (st : MetadataStorage) (p : String) (uid gid : Option Nat) :
    (chown st p uid gid).2 = Except.ok () ∧
    (chown st p uid gid).1.file_lengths = st.file_lengths ∧
    (∀ q, q ≠ p → (chown st p uid gid).1.uids q = st.uids q) ∧
    (∀ q, q ≠ p → (chown st p uid gid).1.gids q = st.gids q) ∧
    (uid = none → (chown st p uid gid).1.uids = st.uids) ∧
    (gid = none → (chown st p uid gid).1.gids = st.gids) ∧
    (∀ u, uid = some u → (chown st p uid gid).1.uids p = some u) ∧
    (∀ g, gid = some g → (chown st p uid gid).1.gids p = some g) ∧
    (uid = none → gid = none → (chown st p uid gid).1 = st) := by
  refine ⟨rfl, ?_, ?_, ?_, ?_, ?_, ?_, ?_, ?_⟩
  · cases uid <;> cases gid <;> rfl
  · intro q hq
    cases uid <;> cases gid <;> simp [chown, mapInsert, hq]
  · intro q hq
    cases uid <;> cases gid <;> simp [chown, mapInsert, hq]
  · rintro rfl
    cases gid <;> rfl
  · rintro rfl
    cases uid <;> rfl
  · intro u hu
    subst hu
    cases gid <;> simp [chown, mapInsert]
  · intro g hg
    subst hg
    cases uid <;> simp [chown, mapInsert]
  · rintro rfl rfl
    rfl

/-- Witness for C10 at concrete inputs: `chown` with neither a uid nor a gid
leaves the empty store unchanged and returns `Ok`. -/
theorem chown_frame_witness :
    (chown emptyStore "a" none none).1 = emptyStore ∧
    (chown emptyStore "a" none none).2 = Except.ok () := by
  have h := chown_frame emptyStore "a" none none
  exact ⟨h.2.2.2.2.2.2.2.2 rfl rfl, h.1⟩

end Fleetfs.Meta

namespace Fleetfs.RaftMgr

theorem lookupRemove_none_iff (m : List (Nat × PendingResponse)) (k : Nat) :
    lookupRemove m k = none ↔ lookupPending m k = none := by
  induction m with
  | nil => simp [lookupRemove, lookupPending]
  | cons kv rest ih =>
    obtain ⟨k2, v⟩ := kv
    by_cases hk : k2 = k
    · simp [lookupRemove, lookupPending, hk]
    · simp only [lookupRemove, lookupPending, if_neg hk]
      rcases hr : lookupRemove rest k with _ | p
      · simp only []
        constructor
        · intro _; exact ih.mp hr
        · intro _; trivial
      · obtain ⟨v2, rest2⟩ := p
        simp only []
        constructor
        · intro h; cases h
        · intro h
          rw [ih.mpr h] at hr
          cases hr

theorem lookupRemove_some_val (m : List (Nat × PendingResponse)) (k : Nat) :
    ∀ (v : PendingResponse) (m2 : List (Nat × PendingResponse)),
      lookupRemove m k = some (v, m2) → lookupPending m k = some v := by
  induction m with
  | nil => intro v m2 h; simp [lookupRemove] at h
  | cons kv rest ih =>
    intro v m2 h
    obtain ⟨k2, v2⟩ := kv
    by_cases hk : k2 = k
    · simp only [lookupRemove, if_pos hk] at h
      injection h with h2
      injection h2 with h3 h4
      subst h3
      simp [lookupPending, hk]
    · simp only [lookupRemove, if_neg hk] at h
      rcases hr : lookupRemove rest k with _ | p
      · rw [hr] at h; cases h
      · rw [hr] at h
        obtain ⟨v3, rest3⟩ := p
        injection h with h2
        injection h2 with h3 h4
        subst h3
        simp only [lookupPending, if_neg hk]
        exact ih _ rest3 hr

theorem lookupPending_some_mem (m : List (Nat × PendingResponse)) (k : Nat)
    (v : PendingResponse) (h : lookupPending m k = some v) : (k, v) ∈ m := by
  induction m with
  | nil => simp [lookupPending] at h
  | cons kv rest ih =>
    obtain ⟨k2, v2⟩ := kv
    by_cases hk : k2 = k
    · simp only [lookupPending, if_pos hk] at h
      injection h with h2
      subst hk; subst h2
      exact List.mem_cons_self _ _
    · simp only [lookupPending, if_neg hk] at h
      exact List.mem_cons_of_mem _ (ih h)

theorem lookupRemove_some_filter (m : List (Nat × PendingResponse)) (k : Nat) :
    ∀ (v : PendingResponse) (m2 : List (Nat × PendingResponse)), keysNodup m →
      lookupRemove m k = some (v, m2) → m2 = m.filter (fun kv => kv.1 != k) := by
  induction m with
  | nil => intro v m2 _ h; simp [lookupRemove] at h
  | cons kv rest ih =>
    intro v m2 hn h
    obtain ⟨k2, v2⟩ := kv
    have hn2 : keysNodup rest := by
      simp only [keysNodup, List.map_cons, List.nodup_cons] at hn
      exact hn.2
    by_cases hk : k2 = k
    · simp only [lookupRemove, if_pos hk] at h
      injection h with h2
      injection h2 with h3 h4
      subst h4
      subst hk
      have hnotin : ∀ kv2 ∈ rest, kv2.1 ≠ k2 := by
        intro kv2 hmem heq
        simp only [keysNodup, List.map_cons, List.nodup_cons] at hn
        exact hn.1 (heq ▸ List.mem_map_of_mem Prod.fst hmem)
      rw [List.filter_cons]
      simp only [bne_self_eq_false, Bool.false_eq_true, if_false]
      symm
      rw [List.filter_eq_self]
      intro kv2 hmem
      simpa using hnotin kv2 hmem
    · simp only [lookupRemove, if_neg hk] at h
      rcases hr : lookupRemove rest k with _ | p
      · rw [hr] at h; cases h
      · rw [hr] at h
        obtain ⟨v3, rest3⟩ := p
        injection h with h2
        injection h2 with h3 h4
        subst h3
        subst h4
        rw [List.filter_cons]
        have hb : ((k2, v2).1 != k) = true := by simpa using hk
        rw [hb]
        simp only [if_true]
        rw [ih _ rest3 hn2 hr]

theorem keysNodup_filter (m : List (Nat × PendingResponse))
    (p : Nat × PendingResponse → Bool) : keysNodup m → keysNodup (m.filter p) := by
  induction m with
  | nil => intro _; simp [keysNodup]
  | cons kv rest ih =>
    intro hn
    have hn2 : keysNodup rest := by
      simp only [keysNodup, List.map_cons, List.nodup_cons] at hn
      exact hn.2
    have hhead : kv.1 ∉ rest.map Prod.fst := by
      simp only [keysNodup, List.map_cons, List.nodup_cons] at hn
      exact hn.1
    rw [List.filter_cons]
    by_cases hp : p kv = true
    · rw [hp]
      simp only [if_true]
      simp only [keysNodup, List.map_cons, List.nodup_cons]
      refine ⟨?_, ih hn2⟩
      intro hmem
      apply hhead
      obtain ⟨kv2, hkv2, heq⟩ := List.mem_map.mp hmem
      exact heq ▸ List.mem_map_of_mem Prod.fst (List.mem_of_mem_filter hkv2)
    · simp only [hp]
      simp only [Bool.false_eq_true, if_false]
      exact ih hn2

theorem lookupPending_filter_ne (m : List (Nat × PendingResponse)) (k k2 : Nat)
    (hk : k2 ≠ k) :
    lookupPending (m.filter (fun kv => kv.1 != k)) k2 = lookupPending m k2 := by
  induction m with
  | nil => simp [lookupPending]
  | cons kv rest ih =>
    obtain ⟨k3, v⟩ := kv
    rw [List.filter_cons]
    by_cases h3 : k3 = k
    · have hb : ((k3, v).1 != k) = false := by simp [h3]
      rw [hb]
      simp only [Bool.false_eq_true, if_false]
      have hne : ¬ (k3 = k2) := by
        rw [h3]
        exact fun h => hk h.symm
      rw [ih]
      simp [lookupPending, if_neg hne]
    · have hb : ((k3, v).1 != k) = true := by simpa using h3
      rw [hb]
      simp only [if_true]
      by_cases h32 : k3 = k2
      · simp [lookupPending, h32]
      · simp only [lookupPending, if_neg h32]
        exact ih

theorem lookupPending_none_not_mem (m : List (Nat × PendingResponse)) (k : Nat)
    (h : lookupPending m k = none) : ∀ kv ∈ m, kv.1 ≠ k := by
  induction m with
  | nil => simp
  | cons kv2 rest ih =>
    obtain ⟨k2, v2⟩ := kv2
    by_cases hk : k2 = k
    · simp [lookupPending, hk] at h
    · simp only [lookupPending, if_neg hk] at h
      intro kv3 hmem
      rcases List.mem_cons.mp hmem with heq | hmem2
      · subst heq; exact hk
      · exact ih h kv3 hmem2

theorem isEmpty_false_of_ne_nil {α : Type} {l : List α} (h : l ≠ []) :
    l.isEmpty = false := by
  cases l with
  | nil => exact absurd rfl h
  | cons a t => rfl

theorem execSteps_nil : execSteps [] = [] := rfl

theorem execSteps_cons_skip (i : Nat) (tr : List ApplierStep) :
    execSteps (ApplierStep.skipEmptyEntry i :: tr) = execSteps tr := by
  simp [execSteps]

theorem execSteps_cons_send (i : Nat) (tr : List ApplierStep) :
    execSteps (ApplierStep.sendResponse i :: tr) = execSteps tr := by
  simp [execSteps]

theorem execSteps_cons_exec (i : Nat) (b : Bool) (tr : List ApplierStep) :
    execSteps (ApplierStep.executeEntry i b :: tr) = (i, b) :: execSteps tr := by
  simp [execSteps]

theorem applyCommittedEntries_trace_phase (env : RaftEnv) (es : List Entry) :
    ∀ pending, ∀ s ∈ (applyCommittedEntries env es pending).trace,
      isApplyPhaseStep s = true := by
  induction es with
  | nil => intro pending s hs; simp [applyCommittedEntries] at hs
  | cons e rest ih =>
    intro pending s hs
    simp only [applyCommittedEntries] at hs
    by_cases hd : e.data = []
    · rw [if_pos hd] at hs
      rcases List.mem_cons.mp hs with heq | hmem
      · subst heq; rfl
      · exact ih pending s hmem
    · rw [if_neg hd] at hs
      by_cases ht : e.entry_type = EntryType.EntryNormal
      · rw [if_neg (by simp [ht])] at hs
        rcases hlr : lookupRemove pending e.index with _ | pq
        · simp only [hlr] at hs
          rcases List.mem_cons.mp hs with heq | hmem
          · subst heq; rfl
          · exact ih pending s hmem
        · obtain ⟨pr, pending2⟩ := pq
          simp only [hlr] at hs
          by_cases hal : pr.receiver_alive = true
          · rw [if_pos hal] at hs
            rcases List.mem_cons.mp hs with heq | hs2
            · subst heq; rfl
            · rcases List.mem_cons.mp hs2 with heq | hmem
              · subst heq; rfl
              · exact ih pending2 s hmem
          · rw [if_neg hal] at hs
            rcases List.mem_cons.mp hs with heq | hmem
            · subst heq; rfl
            · simp at hmem
      · rw [if_pos (by simp [ht])] at hs
        simp at hs

theorem applyStage_trace_eq (env : RaftEnv) (ready : Ready) (trace0 : List ApplierStep)
    (store : MemStorage) (pending : List (Nat × PendingResponse)) :
    (applyStage env ready trace0 store pending).trace
      = trace0 ++ ((match ready.hs with
            | some _ => [ApplierStep.setHardState]
            | none => ([] : List ApplierStep)) ++
          (match ready.committed_entries with
            | some es => (applyCommittedEntries env es pending).trace
            | none => ([] : List ApplierStep))) := by
  unfold applyStage
  rcases hhs : ready.hs with _ | h <;>
    rcases hce : ready.committed_entries with _ | es <;>
    simp only [hhs, hce] <;>
    split <;>
    simp [List.append_assoc]

theorem appendStage_trace (env : RaftEnv) (ready : Ready) (trace0 : List ApplierStep)
    (store : MemStorage) (pending : List (Nat × PendingResponse)) :
    ∃ t2 t3 t4, (appendStage env ready trace0 store pending).trace
        = trace0 ++ (t2 ++ (t3 ++ t4)) ∧
      (∀ s ∈ t2, s = ApplierStep.appendEntries) ∧
      (∀ s ∈ t3, s = ApplierStep.setHardState) ∧
      (∀ s ∈ t4, isApplyPhaseStep s = true) := by
  have hs3 : ∀ s ∈ (match ready.hs with
      | some _ => [ApplierStep.setHardState]
      | none => ([] : List ApplierStep)), s = ApplierStep.setHardState := by
    rcases ready.hs with _ | h <;> simp
  have hs4 : ∀ pend : List (Nat × PendingResponse),
      ∀ s ∈ (match ready.committed_entries with
        | some es => (applyCommittedEntries env es pend).trace
        | none => ([] : List ApplierStep)), isApplyPhaseStep s = true := by
    intro pend
    rcases hce : ready.committed_entries with _ | es
    · simp
    · simpa using applyCommittedEntries_trace_phase env es pend
  unfold appendStage
  by_cases he : ready.entries.isEmpty
  · rw [if_pos he]
    exact ⟨[], _, _, by rw [applyStage_trace_eq]; simp, by simp, hs3, hs4 pending⟩
  · rw [if_neg he]
    cases har : env.append_result with
    | error e =>
      refine ⟨[ApplierStep.appendEntries], [], [], ?_, by simp, by simp, by simp⟩
      simp
    | ok u =>
      cases u
      refine ⟨[ApplierStep.appendEntries], _, _, ?_, by simp, hs3, hs4 pending⟩
      rw [applyStage_trace_eq]
      simp [List.append_assoc]

/-- C4 (amended): on every ready-loop pass the applier performs its steps in
the order: (1) install any pending snapshot, (2) persist new entries via the
log store, (3) update the hard state if changed, and only then (4) apply
newly committed entries — the emitted trace decomposes into these four
phases in that order. -/
theorem ready_loop_stage_order (env : RaftEnv) (node : RawNode)
    (pending : List (Nat × PendingResponse)) :
    ∃ t1 t2 t3 t4,
      (_process_raft_queue env node pending).trace = t1 ++ (t2 ++ (t3 ++ t4)) ∧
      (∀ s ∈ t1, s = ApplierStep.applySnapshot) ∧
      (∀ s ∈ t2, s = ApplierStep.appendEntries) ∧
      (∀ s ∈ t3, s = ApplierStep.setHardState) ∧
      (∀ s ∈ t4, isApplyPhaseStep s = true) := by
  by_cases hready : node.has_ready = false
  · refine ⟨[], [], [], [], ?_, by simp, by simp, by simp, by simp⟩
    simp [_process_raft_queue, hready]
  · rcases hsnap : node.ready.snapshot with _ | snap
    · obtain ⟨t2, t3, t4, heq, h2, h3, h4⟩ :=
        appendStage_trace env node.ready [] node.store pending
      refine ⟨[], t2, t3, t4, ?_, by simp, h2, h3, h4⟩
      simp only [_process_raft_queue, if_neg hready, hsnap]
      simpa using heq
    · cases hap : env.apply_snapshot_result with
      | error e =>
        refine ⟨[ApplierStep.applySnapshot], [], [], [], ?_, by simp, by simp, by simp, by simp⟩
        simp [_process_raft_queue, if_neg hready, hsnap, hap]
      | ok u =>
        cases u
        obtain ⟨t2, t3, t4, heq, h2, h3, h4⟩ :=
          appendStage_trace env node.ready [ApplierStep.applySnapshot]
            (node.store.apply_snapshot snap) pending
        refine ⟨[ApplierStep.applySnapshot], t2, t3, t4, ?_, by simp, h2, h3, h4⟩
        simp only [_process_raft_queue, if_neg hready, hsnap, hap]
        simpa using heq

/-- C2 (code bug): a committed entry whose proposer dropped its one-shot
receiver is still executed (and removed from the pending table), but the
applier then panics in `sender.send(builder).ok().unwrap()` and delivers
nothing, instead of discarding the response as the spec requires. -/
theorem applier_panics_when_receiver_dropped :
    (applyCommittedEntries envOk [entryAt1] pendingDropped).trace
      = [ApplierStep.executeEntry 1 true] ∧
    (applyCommittedEntries envOk [entryAt1] pendingDropped).panicked = true ∧
    (applyCommittedEntries envOk [entryAt1] pendingDropped).delivered = [] ∧
    (applyCommittedEntries envOk [entryAt1] pendingDropped).pending = [] := by
  refine ⟨rfl, rfl, rfl, rfl⟩

/-- C3 counterexample: when the consensus layer rejects the proposal
(`ProposalDropped`), `propose` panics via `unwrap` instead of returning a
typed error. -/
theorem propose_panics_on_dropped_proposal :
    (propose envOk nodeNoLeader [] [1] 5).1 = ProposeOutcome.panicked := rfl

/-- C3 (amended): `propose` asserts the request is a write; on consensus
success it returns the log index `last_index()` and registers the pending
response there; on any consensus failure it panics (aborting the process)
and never returns a typed error. -/
theorem propose_index_or_abort (env : RaftEnv) (node : RawNode)
    (pending : List (Nat × PendingResponse)) (request : List Nat) (builder : Nat)
    (hw : env.is_write_request request = true) :
    ((∃ e, node.propose_result = Except.error e) →
        (propose env node pending request builder).1 = ProposeOutcome.panicked ∧
        (propose env node pending request builder).2 = pending) ∧
    (node.propose_result = Except.ok () →
        (propose env node pending request builder).1 = ProposeOutcome.ok node.last_index ∧
        (propose env node pending request builder).2
          = insertPending pending node.last_index ⟨builder, true⟩) ∧
    (∀ e, (propose env node pending request builder).1 ≠ ProposeOutcome.err e) := by
  unfold propose _propose
  rw [hw]
  cases hp : node.propose_result with
  | error e => simp [hp]
  | ok u =>
    cases u
    simp [hp]

/-- Witness for C3's amended theorem: on a healthy node the proposal of a
write request lands at index 3 and the outcome carries that index. -/
theorem propose_index_or_abort_witness :
    (propose envOk nodeAccepting [] [1] 5).1 = ProposeOutcome.ok 3 :=
  ((propose_index_or_abort envOk nodeAccepting [] [1] 5 rfl).2.1 rfl).1

/-- C4 counterexample: with a pending snapshot, new entries, a changed hard
state, and a committed entry all present, the ready-loop installs the
snapshot first, then persists entries, then saves the hard state — not the
entries→hard-state→snapshot order the spec claims. -/
theorem ready_loop_order_counterexample :
    (_process_raft_queue envOk nodeFullReady []).trace
      = [ApplierStep.applySnapshot, ApplierStep.appendEntries,
         ApplierStep.setHardState, ApplierStep.executeEntry 2 false] ∧
    ¬ specApplierOrder (_process_raft_queue envOk nodeFullReady []).trace := by
  have htr : (_process_raft_queue envOk nodeFullReady []).trace
      = [ApplierStep.applySnapshot, ApplierStep.appendEntries,
         ApplierStep.setHardState, ApplierStep.executeEntry 2 false] := rfl
  refine ⟨htr, ?_⟩
  intro h
  have h2 := h.2.1 2 0 (by rw [htr]; rfl) (by rw [htr]; rfl)
  omega

theorem apply_messages_trace_steps (env : RaftEnv) (node_id : Nat)
    (msgs : List Message) :
    ∀ s ∈ (apply_messages env node_id msgs).1, ∃ d, s = ManagerEffect.stepMessage d := by
  induction msgs with
  | nil => simp [apply_messages]
  | cons m rest ih =>
    by_cases hm : m.msg_to = node_id
    · cases hs : env.step_result m with
      | error e => simp [apply_messages, hm, hs]
      | ok u =>
        cases u
        intro s hsm
        simp only [apply_messages, hm] at hsm
        simp only [ne_eq, not_true_eq_false, if_false, hs] at hsm
        rcases List.mem_cons.mp hsm with heq | hmem
        · exact ⟨node_id, heq⟩
        · exact ih s hmem
    · simp [apply_messages, hm]

/-- C8: `apply_messages` only steps the injected messages — its effect trace
never contains a ready-loop run or an outgoing send — while the ready-loop
(and with it the handing of outgoing messages to the peer transport) occurs
on the background-tick path and on no other public entry point. -/
theorem apply_messages_only_steps (env : RaftEnv) (node : RawNode)
    (pending : List (Nat × PendingResponse)) (node_id : Nat) :
    (∀ msgs, ManagerEffect.readyLoopRun ∉ (apply_messages env node_id msgs).1 ∧
        (∀ p, ManagerEffect.sendMessageTo p ∉ (apply_messages env node_id msgs).1)) ∧
    ManagerEffect.readyLoopRun ∈ opEffects env node pending node_id ManagerOp.opBackgroundTick ∧
    (∀ op, (ManagerEffect.readyLoopRun ∈ opEffects env node pending node_id op ∨
        (∃ p, ManagerEffect.sendMessageTo p ∈ opEffects env node pending node_id op)) →
      op = ManagerOp.opBackgroundTick) := by
  have hready : ManagerEffect.readyLoopRun
      ∈ background_tick_effects env node pending := by
    unfold background_tick_effects process_raft_queue_effects
    cases (_process_raft_queue env node pending).outcome <;> simp
  refine ⟨?_, hready, ?_⟩
  · intro msgs
    constructor
    · intro hmem
      obtain ⟨d, hd⟩ := apply_messages_trace_steps env node_id msgs _ hmem
      cases hd
    · intro p hmem
      obtain ⟨d, hd⟩ := apply_messages_trace_steps env node_id msgs _ hmem
      cases hd
  · intro op hop
    cases op with
    | opApplyMessages msgs =>
      exfalso
      rcases hop with hmem | ⟨p, hmem⟩ <;>
        · obtain ⟨d, hd⟩ := apply_messages_trace_steps env node_id msgs _ hmem
          cases hd
    | opBackgroundTick => rfl
    | opPropose request builder =>
      exfalso
      rcases hop with hmem | ⟨p, hmem⟩ <;> simp [opEffects] at hmem
    | opInitLoop =>
      exfalso
      have : ∀ s ∈ initializeLoopEffects node, s = ManagerEffect.tickClock := by
        intro s hs
        unfold initializeLoopEffects at hs
        by_cases hl : node.leader_id > 0
        · simp [hl] at hs; exact hs
        · simp [hl] at hs; exact hs
      rcases hop with hmem | ⟨p, hmem⟩ <;>
        · have := this _ hmem
          cases this

/-- Witness for C8 at concrete inputs: the background-tick entry point runs
the ready-loop, and the final conjunct applied to that membership returns
the background-tick operation itself. -/
theorem apply_messages_only_steps_witness :
    ManagerEffect.readyLoopRun
      ∈ opEffects envOk nodeNoLeader [] 1 ManagerOp.opBackgroundTick ∧
    ManagerOp.opBackgroundTick = ManagerOp.opBackgroundTick := by
  have h := apply_messages_only_steps envOk nodeNoLeader [] 1
  exact ⟨h.2.1, h.2.2 ManagerOp.opBackgroundTick (Or.inl h.2.1)⟩

/-- C5: for newly committed entries processed in order (normal entries with
distinct indexes, live proposers, and a well-formed pending table): empty
entries are skipped and never executed; every nonempty entry is decoded and
executed exactly once, in order, reusing the pending builder exactly when
the table holds that index (and then delivering the filled builder over the
one-shot channel) and otherwise using a fresh discarded builder; applied
pending entries are removed from the table. -/
theorem applier_commit_semantics (env : RaftEnv) (es : List Entry) :
    ∀ pending : List (Nat × PendingResponse),
      (∀ e ∈ es, e.data ≠ [] → e.entry_type = EntryType.EntryNormal) →
      (∀ kv ∈ pending, kv.2.receiver_alive = true) →
      (es.map Entry.index).Nodup →
      keysNodup pending →
      (applyCommittedEntries env es pending).panicked = false ∧
      execSteps (applyCommittedEntries env es pending).trace
        = (es.filter (fun e2 => !e2.data.isEmpty)).map
            (fun e2 => (e2.index, (lookupPending pending e2.index).isSome)) ∧
      (∀ e ∈ es, e.data = [] →
        ApplierStep.skipEmptyEntry e.index ∈ (applyCommittedEntries env es pending).trace) ∧
      (applyCommittedEntries env es pending).pending
        = pending.filter
            (fun kv => !(es.any (fun e2 => kv.1 == e2.index && !e2.data.isEmpty))) ∧
      (applyCommittedEntries env es pending).delivered
        = (es.filter
              (fun e2 => !e2.data.isEmpty && (lookupPending pending e2.index).isSome)).map
            (fun e2 => (e2.index, env.handler e2.data
                ((lookupPending pending e2.index).getD ⟨builderNew, true⟩).builder)) := by
  induction es with
  | nil =>
    intro pending _ _ _ _
    refine ⟨rfl, rfl, by simp, by simp [applyCommittedEntries], rfl⟩
  | cons e rest ih =>
    intro pending hNormal hAlive hNodupEs hNodupPending
    have hNormalRest : ∀ e2 ∈ rest, e2.data ≠ [] → e2.entry_type = EntryType.EntryNormal :=
      fun e2 hm => hNormal e2 (List.mem_cons_of_mem _ hm)
    have hNodupRest : (rest.map Entry.index).Nodup := by
      simp only [List.map_cons, List.nodup_cons] at hNodupEs
      exact hNodupEs.2
    have hHeadNotin : e.index ∉ rest.map Entry.index := by
      simp only [List.map_cons, List.nodup_cons] at hNodupEs
      exact hNodupEs.1
    by_cases hd : e.data = []
    · -- empty entry: the new-leader marker is skipped
      have hds : e.data.isEmpty = true := by simp [hd]
      obtain ⟨ih1, ih2, ih3, ih4, ih5⟩ := ih pending hNormalRest hAlive hNodupRest hNodupPending
      have hstep : applyCommittedEntries env (e :: rest) pending
          = ⟨ApplierStep.skipEmptyEntry e.index
                :: (applyCommittedEntries env rest pending).trace,
             (applyCommittedEntries env rest pending).pending,
             (applyCommittedEntries env rest pending).delivered,
             (applyCommittedEntries env rest pending).panicked⟩ := by
        simp [applyCommittedEntries, hd]
      refine ⟨?_, ?_, ?_, ?_, ?_⟩
      · rw [hstep]; exact ih1
      · rw [hstep]
        show execSteps (ApplierStep.skipEmptyEntry e.index :: _) = _
        rw [execSteps_cons_skip, ih2, List.filter_cons]
        simp [hds]
      · intro e2 hm he2
        rw [hstep]
        rcases List.mem_cons.mp hm with heq | hmem
        · subst heq
          exact List.mem_cons_self _ _
        · exact List.mem_cons_of_mem _ (ih3 e2 hmem he2)
      · rw [hstep]
        show (applyCommittedEntries env rest pending).pending = _
        rw [ih4]
        refine List.filter_congr ?_
        intro kv _
        simp [List.any_cons, hds]
      · rw [hstep]
        show (applyCommittedEntries env rest pending).delivered = _
        rw [ih5, List.filter_cons]
        simp [hds]
    · -- nonempty entry: decoded and executed
      have ht : e.entry_type = EntryType.EntryNormal := hNormal e (List.mem_cons_self _ _) hd
      have hds : e.data.isEmpty = false := isEmpty_false_of_ne_nil hd
      rcases hlr : lookupRemove pending e.index with _ | pq
      · -- no pending entry: fresh discarded builder
        have hnone : lookupPending pending e.index = none := (lookupRemove_none_iff _ _).mp hlr
        obtain ⟨ih1, ih2, ih3, ih4, ih5⟩ := ih pending hNormalRest hAlive hNodupRest hNodupPending
        have hstep : applyCommittedEntries env (e :: rest) pending
            = ⟨ApplierStep.executeEntry e.index false
                  :: (applyCommittedEntries env rest pending).trace,
               (applyCommittedEntries env rest pending).pending,
               (applyCommittedEntries env rest pending).delivered,
               (applyCommittedEntries env rest pending).panicked⟩ := by
          simp [applyCommittedEntries, hd, ht, hlr]
        refine ⟨?_, ?_, ?_, ?_, ?_⟩
        · rw [hstep]; exact ih1
        · rw [hstep]
          show execSteps (ApplierStep.executeEntry e.index false :: _) = _
          rw [execSteps_cons_exec, ih2, List.filter_cons]
          simp [hds, hnone]
        · intro e2 hm he2
          rw [hstep]
          rcases List.mem_cons.mp hm with heq | hmem
          · subst heq; exact absurd he2 hd
          · exact List.mem_cons_of_mem _ (ih3 e2 hmem he2)
        · rw [hstep]
          show (applyCommittedEntries env rest pending).pending = _
          rw [ih4]
          refine List.filter_congr ?_
          intro kv hkv
          have hne : kv.1 ≠ e.index := lookupPending_none_not_mem pending e.index hnone kv hkv
          simp [List.any_cons, hne]
        · rw [hstep]
          show (applyCommittedEntries env rest pending).delivered = _
          rw [ih5, List.filter_cons]
          simp [hnone]
      · -- a pending entry exists: builder reuse and delivery
        obtain ⟨pr, pending2⟩ := pq
        have hval : lookupPending pending e.index = some pr :=
          lookupRemove_some_val pending e.index pr pending2 hlr
        have hprmem : (e.index, pr) ∈ pending := lookupPending_some_mem pending e.index pr hval
        have hal : pr.receiver_alive = true := hAlive (e.index, pr) hprmem
        have hpend2 : pending2 = pending.filter (fun kv => kv.1 != e.index) :=
          lookupRemove_some_filter pending e.index pr pending2 hNodupPending hlr
        have hAlive2 : ∀ kv ∈ pending2, kv.2.receiver_alive = true := by
          intro kv hm
          rw [hpend2] at hm
          exact hAlive kv (List.mem_of_mem_filter hm)
        have hNodup2 : keysNodup pending2 := by
          rw [hpend2]
          exact keysNodup_filter pending _ hNodupPending
        have hlp : ∀ e2 ∈ rest, lookupPending pending2 e2.index = lookupPending pending e2.index := by
          intro e2 hm
          rw [hpend2]
          exact lookupPending_filter_ne pending e.index e2.index
            (fun heq => hHeadNotin (heq ▸ List.mem_map_of_mem Entry.index hm))
        obtain ⟨ih1, ih2, ih3, ih4, ih5⟩ := ih pending2 hNormalRest hAlive2 hNodupRest hNodup2
        have hstep : applyCommittedEntries env (e :: rest) pending
            = ⟨ApplierStep.executeEntry e.index true :: ApplierStep.sendResponse e.index
                  :: (applyCommittedEntries env rest pending2).trace,
               (applyCommittedEntries env rest pending2).pending,
               (e.index, env.handler e.data pr.builder)
                  :: (applyCommittedEntries env rest pending2).delivered,
               (applyCommittedEntries env rest pending2).panicked⟩ := by
          simp [applyCommittedEntries, hd, ht, hlr, hal]
        refine ⟨?_, ?_, ?_, ?_, ?_⟩
        · rw [hstep]; exact ih1
        · rw [hstep]
          show execSteps (ApplierStep.executeEntry e.index true
              :: ApplierStep.sendResponse e.index :: _) = _
          rw [execSteps_cons_exec, execSteps_cons_send, ih2, List.filter_cons]
          simp only [hds, Bool.not_false, if_true, List.map_cons, hval, Option.isSome_some]
          congr 1
          refine List.map_congr_left ?_
          intro e2 hm
          rw [hlp e2 (List.mem_of_mem_filter hm)]
        · intro e2 hm he2
          rw [hstep]
          rcases List.mem_cons.mp hm with heq | hmem
          · subst heq; exact absurd he2 hd
          · exact List.mem_cons_of_mem _ (List.mem_cons_of_mem _ (ih3 e2 hmem he2))
        · rw [hstep]
          show (applyCommittedEntries env rest pending2).pending = _
          rw [ih4, hpend2, List.filter_filter]
          refine List.filter_congr ?_
          intro kv _
          simp [List.any_cons, hds, Bool.not_or, bne, Bool.and_comm]
        · rw [hstep]
          show (e.index, env.handler e.data pr.builder)
              :: (applyCommittedEntries env rest pending2).delivered = _
          rw [ih5, List.filter_cons]
          simp only [hds, Bool.not_false, Bool.true_and, hval, Option.isSome_some, if_true,
            List.map_cons, Option.getD_some]
          congr 1
          have hfilter : rest.filter
                (fun e2 => !e2.data.isEmpty && (lookupPending pending2 e2.index).isSome)
              = rest.filter
                (fun e2 => !e2.data.isEmpty && (lookupPending pending e2.index).isSome) := by
            refine List.filter_congr ?_
            intro e2 hm
            rw [hlp e2 hm]
          rw [hfilter]
          refine List.map_congr_left ?_
          intro e2 hm
          rw [hlp e2 (List.mem_of_mem_filter hm)]

/-- Witness for C5 at concrete inputs: three committed entries — an empty
marker at index 4, an entry at index 5 with a registered pending response,
and an entry at index 6 without one — satisfy the hypotheses, and the loop
executes 5 and 6 exactly once, delivers the filled builder for 5, and
removes index 5 from the table. -/
theorem applier_commit_semantics_witness :
    ((∀ e ∈ [Entry.mk 4 [] EntryType.EntryNormal, Entry.mk 5 [8] EntryType.EntryNormal,
        Entry.mk 6 [9] EntryType.EntryNormal], e.data ≠ [] →
        e.entry_type = EntryType.EntryNormal) ∧
      (∀ kv ∈ [((5 : Nat), PendingResponse.mk 7 true)], kv.2.receiver_alive = true)) ∧
    (applyCommittedEntries envOk
        [Entry.mk 4 [] EntryType.EntryNormal, Entry.mk 5 [8] EntryType.EntryNormal,
         Entry.mk 6 [9] EntryType.EntryNormal]
        [((5 : Nat), PendingResponse.mk 7 true)]).panicked = false ∧
    execSteps (applyCommittedEntries envOk
        [Entry.mk 4 [] EntryType.EntryNormal, Entry.mk 5 [8] EntryType.EntryNormal,
         Entry.mk 6 [9] EntryType.EntryNormal]
        [((5 : Nat), PendingResponse.mk 7 true)]).trace = [(5, true), (6, false)] ∧
    (applyCommittedEntries envOk
        [Entry.mk 4 [] EntryType.EntryNormal, Entry.mk 5 [8] EntryType.EntryNormal,
         Entry.mk 6 [9] EntryType.EntryNormal]
        [((5 : Nat), PendingResponse.mk 7 true)]).pending = [] ∧
    (applyCommittedEntries envOk
        [Entry.mk 4 [] EntryType.EntryNormal, Entry.mk 5 [8] EntryType.EntryNormal,
         Entry.mk 6 [9] EntryType.EntryNormal]
        [((5 : Nat), PendingResponse.mk 7 true)]).delivered = [(5, 8)] := by
  have h := applier_commit_semantics envOk
    [Entry.mk 4 [] EntryType.EntryNormal, Entry.mk 5 [8] EntryType.EntryNormal,
     Entry.mk 6 [9] EntryType.EntryNormal]
    [((5 : Nat), PendingResponse.mk 7 true)]
    (by decide) (by decide) (by decide) (by unfold keysNodup; decide)
  refine ⟨⟨by decide, by decide⟩, h.1, ?_, ?_, ?_⟩
  · rw [h.2.1]; decide
  · rw [h.2.2.2.1]; decide
  · rw [h.2.2.2.2]; decide

end Fleetfs.RaftMgr

namespace Fleetfs.Router

theorem readPreceded_nil : readPreceded [] := by
  intro n k g h
  simp at h

theorem readPreceded_one_getLatest (g : Nat) :
    readPreceded [RouterEffect.getLatestCommitFromLeader g] := by
  intro n k g2 h
  rcases n with _ | n <;> simp at h

theorem readPreceded_two (g l : Nat) :
    readPreceded [RouterEffect.getLatestCommitFromLeader g, RouterEffect.syncTo g l] := by
  intro n k g2 h
  rcases n with _ | _ | n <;> simp at h

theorem readPreceded_three (g l : Nat) (k : ReadKind) :
    readPreceded [RouterEffect.getLatestCommitFromLeader g, RouterEffect.syncTo g l,
      RouterEffect.fsRead k g] := by
  intro n k2 g2 h
  rcases n with _ | _ | _ | n
  · simp at h
  · simp at h
  · simp at h
    refine ⟨1, l, by omega, by simp [h.2], 0, by omega, by simp [h.2]⟩
  · simp at h

theorem handleRead_trace_cases (env : RouterEnv) (g : Nat) (k : ReadKind)
    (res : Except ErrorCode Unit) (src : RespSrc) (b : Bool) :
    (handleRead env g k res src b).1 = [RouterEffect.getLatestCommitFromLeader g] ∨
    (∃ l, (handleRead env g k res src b).1
        = [RouterEffect.getLatestCommitFromLeader g, RouterEffect.syncTo g l]) ∨
    (∃ l, (handleRead env g k res src b).1
        = [RouterEffect.getLatestCommitFromLeader g, RouterEffect.syncTo g l,
           RouterEffect.fsRead k g]) := by
  unfold handleRead sync_with_leader
  rcases hl : env.latest_commit_from_leader g with e | l
  · simp [hl]
  · rcases hs : env.sync_result g l with e | u
    · simp [hl, hs]
    · rcases res with e | u <;> simp [hl, hs]

theorem handleRead_noPropose (env : RouterEnv) (g : Nat) (k : ReadKind)
    (res : Except ErrorCode Unit) (src : RespSrc) (b : Bool) :
    noProposeIn (handleRead env g k res src b).1 := by
  rcases handleRead_trace_cases env g k res src b with h | ⟨l, h⟩ | ⟨l, h⟩ <;>
    rw [h] <;> intro g2 <;> simp

theorem handleRead_readPreceded (env : RouterEnv) (g : Nat) (k : ReadKind)
    (res : Except ErrorCode Unit) (src : RespSrc) (b : Bool) :
    readPreceded (handleRead env g k res src b).1 := by
  rcases handleRead_trace_cases env g k res src b with h | ⟨l, h⟩ | ⟨l, h⟩ <;> rw [h]
  · exact readPreceded_one_getLatest g
  · exact readPreceded_two g l
  · exact readPreceded_three g l k

theorem handleRead_outcome (env : RouterEnv) (g : Nat) (k : ReadKind)
    (res : Except ErrorCode Unit) (src : RespSrc) (b : Bool) :
    (∃ e, (handleRead env g k res src b).2 = RouterOutcome.err e) ∨
    (∃ s, (handleRead env g k res src b).2 = RouterOutcome.ok s) := by
  unfold handleRead sync_with_leader
  rcases hl : env.latest_commit_from_leader g with e | l
  · simp [hl]
  · rcases hs : env.sync_result g l with e | u
    · simp [hl, hs]
    · rcases res with e | u <;> simp [hl, hs]

theorem handlePropose_outcome (env : RouterEnv) (g : Nat) :
    (∃ e, (handlePropose env g).2 = RouterOutcome.err e) ∨
    (∃ s, (handlePropose env g).2 = RouterOutcome.ok s) := by
  unfold handlePropose
  rcases hp : env.propose_result g with e | u <;> simp [hp]

theorem handleTransaction_outcome (env : RouterEnv) (t : TxKind) :
    (∃ e, (handleTransaction env t).2 = RouterOutcome.err e) ∨
    (∃ s, (handleTransaction env t).2 = RouterOutcome.ok s) := by
  unfold handleTransaction
  rcases ht : env.transaction_result t with e | u <;> simp [ht]

theorem inner_outcome_shape (env : RouterEnv) (mgr : LocalRaftGroupManager)
    (r : GenericRequest) :
    (∃ e, (request_router_inner env mgr r).2 = RouterOutcome.err e) ∨
    (∃ s, (request_router_inner env mgr r).2 = RouterOutcome.ok s) ∨
    ((request_router_inner env mgr r).2 = RouterOutcome.panicked PanicKind.unreachableNone ∧
      r.request_type = RequestType.NONE) ∨
    (((request_router_inner env mgr r).2 = RouterOutcome.panicked PanicKind.protobufDecode ∨
        (request_router_inner env mgr r).2
          = RouterOutcome.panicked PanicKind.applyMessagesFailed) ∧
      r.request_type = RequestType.RaftRequest) := by
  obtain ⟨rt, pl⟩ := r
  cases rt <;> simp only [request_router_inner] <;>
    first
      | -- the filesystem-check arm
        (rcases hs : syncAll env mgr.all_groups with ⟨tr, res⟩
         rcases res with e | u
         · simp [hs]
         · rcases hf : env.fsck_result with e | u <;> simp [hs, hf]
         done)
      | -- the checksum arm
        (rcases hc : env.checksum_result with e | u <;> simp [hc]
         done)
      | -- the filesystem-ready arm
        (rcases ha : awaitLeaders env mgr.all_groups with ⟨tr, res⟩
         rcases res with e | u <;> simp [ha]
         done)
      | -- the NONE arm
        (right; right; left; exact ⟨rfl, rfl⟩)
      | -- every payload-decoding arm
        ((split <;>
          first
            | (left; exact ⟨ErrorCode.BadRequest, rfl⟩)
            | (exact (handleRead_outcome env _ _ _ _ _).imp id Or.inl)
            | (exact (handlePropose_outcome env _).imp id Or.inl)
            | (exact (handleTransaction_outcome env _).imp id Or.inl)
            | (right; left; exact ⟨_, rfl⟩)
            | -- the raft arm: either ok or one of the two unwrap panics
              (rename_i rg md hq
               cases md
               · simp
               · cases hap : env.apply_messages_ok <;> simp [hap]))
         done)

theorem undecodable_err_aux (env : RouterEnv) (mgr : LocalRaftGroupManager)
    (r : GenericRequest)
    (hk : r.request_type ≠ RequestType.NONE ∧
      r.request_type ≠ RequestType.FilesystemCheckRequest ∧
      r.request_type ≠ RequestType.FilesystemChecksumRequest ∧
      r.request_type ≠ RequestType.FilesystemReadyRequest)
    (hdp : decodePayload r = none) :
    (request_router_inner env mgr r).2 = RouterOutcome.err ErrorCode.BadRequest := by
  obtain ⟨rt, pl⟩ := r
  cases rt <;>
    first
      | exact absurd rfl hk.1
      | exact absurd rfl hk.2.1
      | exact absurd rfl hk.2.2.1
      | exact absurd rfl hk.2.2.2
      | simp [request_router_inner, hdp]

theorem router_err_envelope_aux (env : RouterEnv) (mgr : LocalRaftGroupManager)
    (r : GenericRequest) (e : ErrorCode)
    (he : (request_router_inner env mgr r).2 = RouterOutcome.err e) :
    request_router env mgr r = FinalResponse.errorEnvelope e := by
  simp [request_router, he]

/-- C6 (amended): the `NONE` discriminant is the only arm of the dispatcher
that reaches `unreachable!`; for every request whose discriminant is set and
is not a raft message the dispatcher never panics, and a malformed payload
(on every kind whose handler decodes one) produces the bad-request error
response; the raft arm alone panics, via its two `unwrap` calls. -/
theorem router_no_panic (env : RouterEnv) (mgr : LocalRaftGroupManager)
    (r : GenericRequest) :
    ((request_router_inner env mgr r).2 = RouterOutcome.panicked PanicKind.unreachableNone
      ↔ r.request_type = RequestType.NONE) ∧
    (r.request_type ≠ RequestType.NONE → r.request_type ≠ RequestType.RaftRequest →
      ∀ k, (request_router_inner env mgr r).2 ≠ RouterOutcome.panicked k) ∧
    (r.request_type ≠ RequestType.NONE →
      r.request_type ≠ RequestType.FilesystemCheckRequest →
      r.request_type ≠ RequestType.FilesystemChecksumRequest →
      r.request_type ≠ RequestType.FilesystemReadyRequest →
      decodePayload r = none →
      request_router env mgr r = FinalResponse.errorEnvelope ErrorCode.BadRequest) := by
  have hs := inner_outcome_shape env mgr r
  refine ⟨?_, ?_, ?_⟩
  · constructor
    · intro h
      rcases hs with ⟨e, he⟩ | ⟨s, he⟩ | ⟨hp, hrt⟩ | ⟨hp, hrt⟩
      · rw [he] at h; cases h
      · rw [he] at h; cases h
      · exact hrt
      · rcases hp with hp | hp <;> (rw [hp] at h; cases h)
    · intro h
      obtain ⟨rt, pl⟩ := r
      have hrt : rt = RequestType.NONE := h
      subst hrt
      rfl
  · intro h1 h2 k hcon
    rcases hs with ⟨e, he⟩ | ⟨s, he⟩ | ⟨hp, hrt⟩ | ⟨hp, hrt⟩
    · rw [he] at hcon; cases hcon
    · rw [he] at hcon; cases hcon
    · exact h1 hrt
    · exact h2 hrt
  · intro h1 h2 h3 h4 hdp
    exact router_err_envelope_aux env mgr r ErrorCode.BadRequest
      (undecodable_err_aux env mgr r ⟨h1, h2, h3, h4⟩ hdp)

/-- C6 counterexample: a raft request with a set discriminant and a
decodable union payload, whose serialized consensus message is not parsable
protobuf, makes the dispatcher panic in `merge_from_bytes(...).unwrap()`. -/
theorem router_panics_on_garbage_raft_message :
    raftGarbageReq.request_type ≠ RequestType.NONE ∧
    (request_router_inner renvOk mgr0 raftGarbageReq).2
      = RouterOutcome.panicked PanicKind.protobufDecode := by
  exact ⟨by decide, rfl⟩

/-- Witness for C6's amended theorem: a well-formed getattr request (set
discriminant, not a raft message) never produces a panic outcome. -/
theorem router_no_panic_witness :
    (request_router_inner renvOk mgr0 getattrReq).2
      ≠ RouterOutcome.panicked PanicKind.unreachableNone :=
  (router_no_panic renvOk mgr0 getattrReq).2.1 (by decide) (by decide)
    PanicKind.unreachableNone

/-- C1 counterexample: the read-raw request — listed by the spec among the
local reads that get the freshness handshake — is dispatched straight to the
file-storage read path: its first (and only) effect is the read itself, with
no leader query and no sync before it. -/
theorem local_read_handshake_counterexample :
    isLocalRead readRawReq.request_type = true ∧
    (request_router_inner renvOk mgr0 readRawReq).1
      = [RouterEffect.fsRead ReadKind.readRawOp 0] ∧
    ¬ readPreceded (request_router_inner renvOk mgr0 readRawReq).1 := by
  refine ⟨rfl, rfl, ?_⟩
  intro h
  obtain ⟨m, l, hm, -, -⟩ := h 0 ReadKind.readRawOp 0 rfl
  exact absurd hm (Nat.not_lt_zero m)

/-- C1 (amended): for every local read request (read, lookup, readdir,
getattr, get-xattr, list-xattrs) the dispatcher completes the freshness
handshake — `get_latest_commit_from_leader` then `sync` to the returned
index, on the owning group — before any file-storage read, and it never
proposes; read-raw also never proposes but reads without the handshake. -/
theorem local_reads_handshake (env : RouterEnv) (mgr : LocalRaftGroupManager)
    (r : GenericRequest) (hlr : isLocalRead r.request_type = true) :
    noProposeIn (request_router_inner env mgr r).1 ∧
    (r.request_type ≠ RequestType.ReadRawRequest →
      readPreceded (request_router_inner env mgr r).1) := by
  obtain ⟨rt, pl⟩ := r
  cases rt <;> simp [isLocalRead] at hlr
  case ReadRawRequest =>
    constructor
    · simp only [request_router_inner]
      split <;> intro g2 <;> simp
    · intro h
      exact absurd rfl h
  all_goals
    constructor
  all_goals
    first
      | (simp only [request_router_inner]
         split
         · exact handleRead_noPropose env _ _ _ _ _
         · intro g2; simp)
      | (intro _
         simp only [request_router_inner]
         split
         · exact handleRead_readPreceded env _ _ _ _ _
         · exact readPreceded_nil)

/-- Witness for C1's amended theorem: a well-formed getattr request proposes
nothing and its storage read is preceded by the completed handshake. -/
theorem local_reads_handshake_witness :
    noProposeIn (request_router_inner renvOk mgr0 getattrReq).1 ∧
    readPreceded (request_router_inner renvOk mgr0 getattrReq).1 := by
  have h := local_reads_handshake renvOk mgr0 getattrReq rfl
  exact ⟨h.1, h.2 (by decide)⟩

/-- C7 (amended): every dispatcher arm that decodes its union payload — all
request kinds except filesystem-check, filesystem-checksum and
filesystem-ready, whose handlers never read the payload — returns the
bad-request error when the payload is absent or of the wrong variant; and
on any error path whatsoever — any request, any collaborator outcome —
`request_router` builds the error envelope carrying that error code in a
fresh builder. -/
theorem bad_request_on_undecodable (env : RouterEnv) (mgr : LocalRaftGroupManager)
    (r : GenericRequest)
    (hk : r.request_type ≠ RequestType.NONE ∧
      r.request_type ≠ RequestType.FilesystemCheckRequest ∧
      r.request_type ≠ RequestType.FilesystemChecksumRequest ∧
      r.request_type ≠ RequestType.FilesystemReadyRequest)
    (hdp : decodePayload r = none) :
    (request_router_inner env mgr r).2 = RouterOutcome.err ErrorCode.BadRequest ∧
    (∀ (env2 : RouterEnv) (mgr2 : LocalRaftGroupManager) (r2 : GenericRequest)
        (e : ErrorCode),
      (request_router_inner env2 mgr2 r2).2 = RouterOutcome.err e →
      request_router env2 mgr2 r2 = FinalResponse.errorEnvelope e) :=
  ⟨undecodable_err_aux env mgr r hk hdp,
   fun env2 mgr2 r2 e he => router_err_envelope_aux env2 mgr2 r2 e he⟩

/-- C7 counterexample: a filesystem-check request whose union payload is
absent (undecodable) is not answered with bad-request — the handler never
decodes the payload and runs the check normally. -/
theorem undecodable_check_not_bad_request :
    decodePayload checkNoPayloadReq = none ∧
    checkNoPayloadReq.request_type ≠ RequestType.NONE ∧
    (request_router_inner renvOk mgr0 checkNoPayloadReq).2
      = RouterOutcome.ok (FullOrPartialResponse.partialResp RespSrc.fromFsck) ∧
    (request_router_inner renvOk mgr0 checkNoPayloadReq).2
      ≠ RouterOutcome.err ErrorCode.BadRequest := by
  refine ⟨rfl, by decide, rfl, by decide⟩

/-- Witness for C7's amended theorem: a getattr request with an absent
payload gets the bad-request error and the router wraps it in the error
envelope; and on a different error path — a well-formed getattr whose
freshness handshake times out at the leader query — the router likewise
wraps the timeout in the error envelope. -/
theorem bad_request_on_undecodable_witness :
    (request_router_inner renvOk mgr0 ⟨RequestType.GetattrRequest, none⟩).2
      = RouterOutcome.err ErrorCode.BadRequest ∧
    request_router renvOk mgr0 ⟨RequestType.GetattrRequest, none⟩
      = FinalResponse.errorEnvelope ErrorCode.BadRequest ∧
    (request_router_inner renvLeaderDown mgr0 getattrReq).2
      = RouterOutcome.err ErrorCode.Timeout ∧
    request_router renvLeaderDown mgr0 getattrReq
      = FinalResponse.errorEnvelope ErrorCode.Timeout := by
  have h := bad_request_on_undecodable renvOk mgr0 ⟨RequestType.GetattrRequest, none⟩
    ⟨by decide, by decide, by decide, by decide⟩ rfl
  refine ⟨h.1, h.2 renvOk mgr0 ⟨RequestType.GetattrRequest, none⟩ ErrorCode.BadRequest h.1,
    rfl, h.2 renvLeaderDown mgr0 getattrReq ErrorCode.Timeout rfl⟩
